import Mathlib

/-!
Verification development for the request-dispatch and rate-limiting core of
the quickbooks-go client.

The embedding below is a shallow model of the source:
the current revision of the client file (rate-limit types, RateLimiterManager,
Client, NewClient, Client.req, Client.batch) and batch.go (Client.BatchRequest),
plus the older blocking revision of the client file in namespace V15.
External effects (JSON marshalling, the HTTP transport, gzip, JSON decoding)
are supplied by a World oracle; token buckets are modelled by their available
burst tokens at a single instant (refill over time is not needed by any claim);
Go channel semaphores are modelled by an occupied-slot counter; Go maps keyed
by realm id are modelled by association lists; Go pointer identity of a realm
limiter bundle is modelled by a trackerId allocated at creation.
-/

namespace QBClient

/-- Mirrors the Go struct rateLimitType with fields Name and Rate. -/
structure rateLimitType where
  Name : String
  Rate : String
deriving DecidableEq, Repr

/-- Mirrors the package-level var apiRl (note the source's spelling of the name). -/
def apiRl : rateLimitType := { Name := "extenal api", Rate := "" }

/-- Mirrors the package-level var realmGeneralRL. -/
def realmGeneralRL : rateLimitType :=
  { Name := "internal realm general", Rate := "500 req/min, burst to 10 req/sec" }

/-- Mirrors the package-level var realmConcurrentRL. -/
def realmConcurrentRL : rateLimitType :=
  { Name := "internal realm concurrent", Rate := "10 req/sec" }

/-- Mirrors the package-level var realmBatchRL. -/
def realmBatchRL : rateLimitType :=
  { Name := "internal realm batch", Rate := "40 req/min" }

/-- Mirrors the package-level var globalGeneralRL. -/
def globalGeneralRL : rateLimitType :=
  { Name := "internal global general", Rate := "500 req/min, burst to 10 req/sec" }

/-- Mirrors the package-level var globalConcurrentRL. -/
def globalConcurrentRL : rateLimitType :=
  { Name := "internal global concurrent", Rate := "10 req/sec" }

/-- Mirrors the Go struct RateLimitError with fields Message and LimitType. -/
structure RateLimitError where
  Message : String
  LimitType : rateLimitType
deriving DecidableEq, Repr

/-- Mirrors the Go function NewRateLimitError. -/
def NewRateLimitError (limitType : rateLimitType) : RateLimitError :=
  { Message :=
      if limitType.Rate = "" then limitType.Name ++ " rate limit exceeded"
      else limitType.Name ++ " rate limit exceeded: " ++ limitType.Rate,
    LimitType := limitType }

/-- Mirrors the Go struct RealmRateLimiters: the general token bucket is
modelled by its available burst tokens, the concurrent channel by its
occupied-slot count, the batch bucket by its available burst tokens, and the
Go pointer identity of the allocated bundle by trackerId. -/
structure RealmRateLimiters where
  generalTokens : Nat
  concurrentUsed : Nat
  batchTokens : Nat
  trackerId : Nat
deriving DecidableEq, Repr

/-- Capacity of the realm concurrent channel: make of chan struct with cap 10. -/
def realmConcurrentCap : Nat := 10

/-- Capacity of the global concurrent channel: make of chan struct with cap 10. -/
def globalConcurrentCap : Nat := 10

/-- Mirrors the allocation of a fresh RealmRateLimiters value inside
getRealmLimiter: general bucket with burst 10 (full at creation), concurrent
channel with 0 occupied slots, batch bucket with burst 5 (full at creation).
The id records the identity of this allocation. -/
def newRealmRateLimiters (id : Nat) : RealmRateLimiters :=
  { generalTokens := 10, concurrentUsed := 0, batchTokens := 5, trackerId := id }

/-- Mirrors the Go struct RateLimiterManager: the map from realm id to its
limiter bundle is modelled as an association list, and nextId is the supply
of allocation identities. The sync.Mutex serializes getRealmLimiter calls;
its effect is modelled by treating each call as one atomic operation. -/
structure RateLimiterManager where
  nextId : Nat
  limiters : List (String × RealmRateLimiters)
deriving DecidableEq, Repr

/-- Mirrors NewRateLimiterManager: an empty map. -/
def NewRateLimiterManager : RateLimiterManager :=
  { nextId := 0, limiters := [] }

/-- Lookup of a realm id in the manager map (first matching entry). -/
def lookupRealmEntry : List (String × RealmRateLimiters) → String → Option RealmRateLimiters
  | [], _ => none
  | (k, v) :: rest, r => if k = r then some v else lookupRealmEntry rest r

/-- Mirrors the Go method getRealmLimiter: under the manager mutex, return the
existing bundle for the realm, or create, insert and return a fresh one. The
whole lookup-or-create runs as one critical section, so it is one atomic
operation here. -/
def RateLimiterManager.getRealmLimiter (m : RateLimiterManager) (realmId : String) :
    RealmRateLimiters × RateLimiterManager :=
  match lookupRealmEntry m.limiters realmId with
  | some limiter => (limiter, m)
  | none =>
    let limiter := newRealmRateLimiters m.nextId
    (limiter, { nextId := m.nextId + 1, limiters := (realmId, limiter) :: m.limiters })

/-- Apply an update to the bundle stored under one realm id, leaving the other
entries untouched. -/
def updateEntries : List (String × RealmRateLimiters) → String →
    (RealmRateLimiters → RealmRateLimiters) → List (String × RealmRateLimiters)
  | [], _, _ => []
  | (k, v) :: rest, r, f => (k, if k = r then f v else v) :: updateEntries rest r f

/-- Point update of the bundle stored for one realm id (models mutating the
shared bundle through the pointer obtained from getRealmLimiter). -/
def RateLimiterManager.updateRealm (m : RateLimiterManager) (realmId : String)
    (f : RealmRateLimiters → RealmRateLimiters) : RateLimiterManager :=
  { m with limiters := updateEntries m.limiters realmId f }

/-- Occupied realm concurrency slots for a realm id (0 when no bundle exists,
matching a channel that has not been created yet). -/
def RateLimiterManager.concUsed (m : RateLimiterManager) (realmId : String) : Nat :=
  match lookupRealmEntry m.limiters realmId with
  | some l => l.concurrentUsed
  | none => 0

/-- Mirrors net/url Values restricted to what the source uses: a map from a
query key to its list of values, modelled as an association list. -/
abbrev Values := List (String × List String)

/-- Mirrors Values.Add: append one value to the list stored under the key. -/
def Values.add : Values → String → String → Values
  | [], key, value => [(key, [value])]
  | (k, vs) :: rest, key, value =>
    if k = key then (k, vs ++ [value]) :: rest
    else (k, vs) :: Values.add rest key value

/-- Mirrors Values.Set: replace whatever is stored under the key by the single
given value. -/
def Values.set : Values → String → String → Values
  | [], key, value => [(key, [value])]
  | (k, vs) :: rest, key, value =>
    if k = key then (k, [value]) :: rest
    else (k, vs) :: Values.set rest key value

/-- Values lookup: the list of values stored under a key (empty when absent). -/
def Values.get : Values → String → List String
  | [], _ => []
  | (k, vs) :: rest, key => if k = key then vs else Values.get rest key

/-- Mirrors the query-building part of Client.req: Add every caller parameter,
then Set the minorversion parameter to the client's configured value. The
iteration order of the Go map only permutes distinct keys and does not affect
any per-key value list. -/
def buildQueryValues (queryParameters : List (String × String)) (minorVersion : String) : Values :=
  Values.set (queryParameters.foldl (fun acc p => Values.add acc p.1 p.2) []) "minorversion"
    minorVersion

/-- Mirrors the BearerToken struct restricted to the field the dispatcher
reads; the remaining token metadata never flows into Client.req. -/
structure BearerToken where
  AccessToken : String
deriving DecidableEq, Repr

/-- Mirrors the Go struct RequestParameters of the current client revision
(exported fields). The context is represented where it is consumed: the
transport outcome of the World oracle already accounts for cancellation during
the HTTP exchange, and Client.batch additionally receives the cancellation
flag for its limiter wait. -/
structure RequestParameters where
  RealmId : String
  Token : BearerToken
deriving DecidableEq, Repr

/-- Mirrors the Go struct Client of the current client revision.
baseEndpoint is the parsed URL of the configured endpoint string with
"/v3/company/" appended (NewClient); for well-formed endpoints the round trip
through url.Parse and URL.String is string concatenation, which is how it is
modelled. The globalConcurrent channel is modelled by its occupied-slot count
and the global rate limiter by its available burst tokens. -/
structure Client where
  baseEndpoint : String
  minorVersion : String
  rateLimiter : RateLimiterManager
  globalConcurrentUsed : Nat
  globalTokens : Nat
deriving DecidableEq, Repr

/-- Mirrors the Go struct ClientRequest restricted to the fields that reach
the dispatch core. -/
structure ClientRequest where
  Endpoint : String
  MinorVersion : String
deriving DecidableEq, Repr

/-- Mirrors NewClient (success path of the endpoint parse): default the minor
version to 75 when empty, start with a fresh manager, an empty global
concurrency channel of capacity 10, and a global limiter with burst 10, full
at creation. -/
def NewClient (req : ClientRequest) : Client :=
  { baseEndpoint := req.Endpoint ++ "/v3/company/",
    minorVersion := if req.MinorVersion = "" then "75" else req.MinorVersion,
    rateLimiter := NewRateLimiterManager,
    globalConcurrentUsed := 0,
    globalTokens := 10 }

/-- Outcome of json.Marshal on the payload, supplied by the oracle. -/
inductive MarshalResult where
  | ok (bytes : String)
  | err (msg : String)
deriving DecidableEq, Repr

/-- Outcome of the HTTP exchange, supplied by the oracle: either a transport
failure from Client.Do (which includes cancellation during transport), or a
response with its status code, whether the body is gzip-encoded, and the body. -/
inductive HttpResult where
  | transportErr (msg : String)
  | response (status : Nat) (gzipEncoded : Bool) (body : String)
deriving DecidableEq, Repr

/-- Outcome of decoding the response body into the caller's object. -/
inductive DecodeResult where
  | ok
  | err (msg : String)
deriving DecidableEq, Repr

/-- The parsed structured fault body of a non-200 non-429 response. -/
structure FailureBody where
  status : Nat
  faultCode : String
  element : String
  message : String
deriving DecidableEq, Repr

/-- Oracle for every effect of one dispatch that is produced outside the
dispatch core: marshalling, request construction, the HTTP exchange, gzip
reader creation, body decoding, and the parsed fault body of an error
response. -/
structure World where
  marshal : MarshalResult
  buildOk : Bool
  http : HttpResult
  gzipOk : Bool
  decode : DecodeResult
  faultBody : FailureBody
deriving DecidableEq, Repr

/-- The HTTP request assembled by Client.req, as handed to the transport. -/
structure HttpCall where
  method : String
  urlPath : String
  query : Values
  headers : List (String × String)
  body : String
deriving DecidableEq, Repr

/-- Observable actions of one dispatch, in execution order: the two global
gate checks, the registry lookup, the two realm gate checks, the batch
limiter wait, and the HTTP exchange itself. -/
inductive Event where
  | acquireGlobalConcurrent
  | checkGlobalGeneral
  | lookupRealm (realmId : String)
  | checkRealmGeneral
  | acquireRealmConcurrent
  | batchWait (realmId : String)
  | httpExchange (call : HttpCall)
deriving DecidableEq, Repr

/-- The closed error taxonomy of one dispatch. rateLimit covers every
RateLimitError (local gates and the remote 429); the remaining constructors
mirror the fmt.Errorf returns of Client.req and Client.batch, and
requestFailure mirrors the error produced by parseFailure. -/
inductive ReqError where
  | rateLimit (e : RateLimitError)
  | marshalFailure (msg : String)
  | buildFailure (msg : String)
  | transportFailure (msg : String)
  | requestFailure (f : FailureBody)
  | gzipFailure (msg : String)
  | decodeFailure (msg : String)
  | batchLimiterFailure (msg : String)
deriving DecidableEq, Repr

/-- Modelled from the spec: parseFailure (its defining file is absent from
src; only callers appear). Per the spec, a non-200 non-429 response has its
structured fault body parsed and surfaced as a request-failure error carrying
status code, fault code, element and message. -/
def parseFailure (f : FailureBody) : ReqError :=
  ReqError.requestFailure f

/-- Result of one dispatch: the returned error (none mirrors a nil return),
the trace of observable actions, and the client state after every deferred
release has run. -/
structure ReqOutput where
  result : Option ReqError
  events : List Event
  client : Client
deriving DecidableEq, Repr

/-- Consume one token of the realm general bucket (successful Allow). -/
def consumeGeneralToken (l : RealmRateLimiters) : RealmRateLimiters :=
  { l with generalTokens := l.generalTokens - 1 }

/-- Occupy one slot of the realm concurrency channel (successful select). -/
def acquireRealmConc (l : RealmRateLimiters) : RealmRateLimiters :=
  { l with concurrentUsed := l.concurrentUsed + 1 }

/-- Free one slot of the realm concurrency channel (deferred receive). -/
def releaseRealmConc (l : RealmRateLimiters) : RealmRateLimiters :=
  { l with concurrentUsed := l.concurrentUsed - 1 }

/-- Consume one token of the realm batch bucket (successful Wait); at zero the
wait spans a refill, which keeps the instantaneous count at zero. -/
def consumeBatchToken (l : RealmRateLimiters) : RealmRateLimiters :=
  { l with batchTokens := l.batchTokens - 1 }

/-- Deferred release of the global concurrency slot. -/
def releaseGlobalSlot (c : Client) : Client :=
  { c with globalConcurrentUsed := c.globalConcurrentUsed - 1 }

/-- Deferred release of the realm concurrency slot. -/
def releaseRealmSlot (c : Client) (realmId : String) : Client :=
  { c with rateLimiter := c.rateLimiter.updateRealm realmId releaseRealmConc }

/-- The event trace of the successfully passed admission gates, in the order
Client.req performs them. -/
def gateEvents (realmId : String) : List Event :=
  [Event.acquireGlobalConcurrent, Event.checkGlobalGeneral, Event.lookupRealm realmId,
   Event.checkRealmGeneral, Event.acquireRealmConcurrent]

/-- Mirrors Client.req of the current client revision, step by step:
global concurrency select, global limiter Allow, getRealmLimiter, realm
limiter Allow, realm concurrency select, URL and query construction, payload
marshalling, request construction with its headers, the HTTP exchange, status
classification (200, 429, other), gzip handling, and body decoding. Each
return path applies exactly the deferred releases that are armed at that
point. payloadPresent mirrors payloadData being non-nil and wantResponse
mirrors responseObject being non-nil. -/
def Client.req (c : Client) (params : RequestParameters) (method endpoint : String)
    (payloadPresent : Bool) (wantResponse : Bool)
    (queryParameters : List (String × String)) (w : World) : ReqOutput :=
  -- select: attempt to acquire the global concurrency slot, non-blocking
  if c.globalConcurrentUsed < globalConcurrentCap then
    -- slot acquired; its release is deferred to every later return path
    let c₁ := { c with globalConcurrentUsed := c.globalConcurrentUsed + 1 }
    -- check the global rate limiter, non-blocking (Allow)
    if c₁.globalTokens = 0 then
      { result := some (ReqError.rateLimit (NewRateLimitError globalGeneralRL)),
        events := [Event.acquireGlobalConcurrent, Event.checkGlobalGeneral],
        client := releaseGlobalSlot c₁ }
    else
      let c₂ := { c₁ with globalTokens := c₁.globalTokens - 1 }
      -- retrieve the per-realm limiter
      let gl := c₂.rateLimiter.getRealmLimiter params.RealmId
      let limiter := gl.1
      let c₃ := { c₂ with rateLimiter := gl.2 }
      -- check the realm-specific rate limiter, non-blocking (Allow)
      if limiter.generalTokens = 0 then
        { result := some (ReqError.rateLimit (NewRateLimitError realmGeneralRL)),
          events := [Event.acquireGlobalConcurrent, Event.checkGlobalGeneral,
                     Event.lookupRealm params.RealmId, Event.checkRealmGeneral],
          client := releaseGlobalSlot c₃ }
      else
        let c₄ := { c₃ with rateLimiter := c₃.rateLimiter.updateRealm params.RealmId consumeGeneralToken }
        -- select: attempt to acquire the realm concurrency slot, non-blocking
        if limiter.concurrentUsed < realmConcurrentCap then
          -- slot acquired; its release is deferred to every later return path
          let c₅ := { c₄ with rateLimiter := c₄.rateLimiter.updateRealm params.RealmId acquireRealmConc }
          -- build the full endpoint URL including realmId, and the query
          let urlPath := c.baseEndpoint ++ params.RealmId ++ "/" ++ endpoint
          let urlValues := buildQueryValues queryParameters c.minorVersion
      -- marshal the payload when one is present (an absent payload leaves the
      -- body bytes empty)
          match (if payloadPresent then w.marshal else MarshalResult.ok "") with
          | MarshalResult.err m =>
            { result := some (ReqError.marshalFailure ("failed to marshal payload: " ++ m)),
              events := gateEvents params.RealmId,
              client := releaseGlobalSlot (releaseRealmSlot c₅ params.RealmId) }
          | MarshalResult.ok body =>
            if w.buildOk then
              let call : HttpCall :=
                { method := method, urlPath := urlPath, query := urlValues,
                  headers := [("Accept", "application/json"),
                              ("Accept-Encoding", "gzip"),
                              ("Content-Type", "application/json"),
                              ("Authorization", "Bearer " ++ params.Token.AccessToken)],
                  body := body }
              let evs := gateEvents params.RealmId ++ [Event.httpExchange call]
              let released := releaseGlobalSlot (releaseRealmSlot c₅ params.RealmId)
              match w.http with
              | HttpResult.transportErr m =>
                { result := some (ReqError.transportFailure ("failed to make request: " ++ m)),
                  events := evs, client := released }
              | HttpResult.response status gzipEncoded _ =>
                if status = 200 then
                  -- successful response: gzip handling, then decoding
                  if gzipEncoded && !w.gzipOk then
                    { result := some (ReqError.gzipFailure "failed to create gzip reader"),
                      events := evs, client := released }
                  else if wantResponse then
                    match w.decode with
                    | DecodeResult.err m =>
                      { result := some (ReqError.decodeFailure
                          ("failed to unmarshal response into object: " ++ m)),
                        events := evs, client := released }
                    | DecodeResult.ok =>
                      { result := none, events := evs, client := released }
                  else
                    { result := none, events := evs, client := released }
                else if status = 429 then
                  { result := some (ReqError.rateLimit (NewRateLimitError apiRl)),
                    events := evs, client := released }
                else
                  { result := some (parseFailure w.faultBody),
                    events := evs, client := released }
            else
              { result := some (ReqError.buildFailure "failed to create request"),
                events := gateEvents params.RealmId,
                client := releaseGlobalSlot (releaseRealmSlot c₅ params.RealmId) }
        else
          { result := some (ReqError.rateLimit (NewRateLimitError realmConcurrentRL)),
            events := [Event.acquireGlobalConcurrent, Event.checkGlobalGeneral,
                       Event.lookupRealm params.RealmId, Event.checkRealmGeneral,
                       Event.acquireRealmConcurrent],
            client := releaseGlobalSlot c₄ }
  else
    { result := some (ReqError.rateLimit (NewRateLimitError globalConcurrentRL)),
      events := [Event.acquireGlobalConcurrent],
      client := c }

/-- Mirrors Client.batch of the current client revision: look up the realm
limiter bundle, wait (always blocking) on its batch bucket under the caller's
context, then post to the batch endpoint through Client.req with a non-nil
response object and nil query parameters. ctxCancelled is whether the context
is done when the wait starts; Wait then returns the context error. -/
def Client.batch (c : Client) (ctxCancelled : Bool) (params : RequestParameters)
    (payloadPresent : Bool) (w : World) : ReqOutput :=
  let gl := c.rateLimiter.getRealmLimiter params.RealmId
  let c₁ := { c with rateLimiter := gl.2 }
  if ctxCancelled then
    { result := some (ReqError.batchLimiterFailure "batch rate limiter error: context canceled"),
      events := [Event.lookupRealm params.RealmId],
      client := c₁ }
  else
    let c₂ := { c₁ with rateLimiter := c₁.rateLimiter.updateRealm params.RealmId consumeBatchToken }
    let out := Client.req c₂ params "POST" "batch" payloadPresent true [] w
    { out with events := Event.lookupRealm params.RealmId :: Event.batchWait params.RealmId :: out.events }

/-- Mirrors the Go struct BatchItemRequest restricted to the correlation id;
the remaining fields are payload data that the dispatch core never inspects. -/
structure BatchItemRequest where
  BID : String
deriving DecidableEq, Repr

/-- Mirrors the Go struct BatchItemResponse restricted to the correlation id. -/
structure BatchItemResponse where
  BID : String
deriving DecidableEq, Repr

/-- Result of Client.BatchRequest: the concatenated per-item responses (the Go
nil slice is modelled by the empty list), the wrapped error of a failed chunk
dispatch when one occurred, and per physical call its payload chunk and its
event trace, in issue order. -/
structure BatchOutput where
  responses : List BatchItemResponse
  errored : Option ReqError
  calls : List (List BatchItemRequest)
  callEvents : List (List Event)
  client : Client
deriving DecidableEq, Repr

/-- The consecutive chunks of at most 30 items that the BatchRequest loop
walks (start advances by chunkSize until it passes the end). -/
def chunks30 (l : List BatchItemRequest) : List (List BatchItemRequest) :=
  if l = [] then [] else l.take 30 :: chunks30 (l.drop 30)
termination_by l.length
decreasing_by
  rename_i h
  have hl : 0 < l.length := List.length_pos.mpr h
  simp only [List.length_drop]
  omega

/-- The loop body of Client.BatchRequest: dispatch the next chunk of at most
30 items through Client.batch; on error stop and return a nil slice with the
wrapped error, otherwise append the decoded per-item responses and continue.
The World oracle and the decoded responses of each successive physical call
are consumed head-first from worlds and decoded. -/
def batchLoop (c : Client) (ctxCancelled : Bool) (params : RequestParameters)
    (pending : List BatchItemRequest) (worlds : List World)
    (decoded : List (List BatchItemResponse))
    (acc : List BatchItemResponse) (accCalls : List (List BatchItemRequest))
    (accEvents : List (List Event)) : BatchOutput :=
  if h : pending = [] then
    { responses := acc, errored := none, calls := accCalls, callEvents := accEvents, client := c }
  else
    let chunk := pending.take 30
    let w := worlds.headD
      { marshal := MarshalResult.ok "", buildOk := true,
        http := HttpResult.response 200 false "", gzipOk := true,
        decode := DecodeResult.ok, faultBody := ⟨0, "", "", ""⟩ }
    let out := Client.batch c ctxCancelled params true w
    match out.result with
    | some e =>
      { responses := [], errored := some e, calls := accCalls ++ [chunk],
        callEvents := accEvents ++ [out.events], client := out.client }
    | none =>
      batchLoop out.client ctxCancelled params (pending.drop 30) worlds.tail decoded.tail
        (acc ++ decoded.headD []) (accCalls ++ [chunk]) (accEvents ++ [out.events])
termination_by pending.length
decreasing_by
  have hl : 0 < pending.length := List.length_pos.mpr h
  simp only [List.length_drop]
  omega

/-- Mirrors Client.BatchRequest of batch.go: an empty input returns nil
responses and a nil error immediately; otherwise the input is walked in
chunks of at most 30 items, one Client.batch dispatch per chunk, sequentially,
concatenating the decoded responses. -/
def Client.BatchRequest (c : Client) (ctxCancelled : Bool) (params : RequestParameters)
    (batchRequests : List BatchItemRequest) (worlds : List World)
    (decoded : List (List BatchItemResponse)) : BatchOutput :=
  if batchRequests = [] then
    { responses := [], errored := none, calls := [], callEvents := [], client := c }
  else
    batchLoop c ctxCancelled params batchRequests worlds decoded [] [] []

/-! Helper lemmas about the manager map. -/

theorem lookupRealmEntry_updateEntries (l : List (String × RealmRateLimiters)) (r r' : String)
    (f : RealmRateLimiters → RealmRateLimiters) :
    lookupRealmEntry (updateEntries l r f) r' =
      if r' = r then (lookupRealmEntry l r').map f else lookupRealmEntry l r' := by
  by_cases hrr : r' = r
  · subst hrr
    simp only [if_pos rfl]
    induction l with
    | nil => simp [lookupRealmEntry, updateEntries]
    | cons p t ih =>
      obtain ⟨k, v⟩ := p
      by_cases hk : k = r'
      · subst hk
        simp [lookupRealmEntry, updateEntries]
      · simp [lookupRealmEntry, updateEntries, hk, ih]
  · simp only [if_neg hrr]
    induction l with
    | nil => simp [lookupRealmEntry, updateEntries]
    | cons p t ih =>
      obtain ⟨k, v⟩ := p
      by_cases hk : k = r
      · subst hk
        have hne : ¬ k = r' := fun h => hrr h.symm
        simp [lookupRealmEntry, updateEntries, hne, ih]
      · by_cases hk' : k = r' <;> simp [lookupRealmEntry, updateEntries, hk, hk', hrr, ih]

theorem lookupRealmEntry_updateRealm (m : RateLimiterManager) (r r' : String)
    (f : RealmRateLimiters → RealmRateLimiters) :
    lookupRealmEntry ((m.updateRealm r f).limiters) r' =
      if r' = r then (lookupRealmEntry m.limiters r').map f else lookupRealmEntry m.limiters r' := by
  simpa [RateLimiterManager.updateRealm] using lookupRealmEntry_updateEntries m.limiters r r' f

theorem concUsed_updateRealm_keep (m : RateLimiterManager) (r r' : String)
    (f : RealmRateLimiters → RealmRateLimiters)
    (hf : ∀ l, (f l).concurrentUsed = l.concurrentUsed) :
    (m.updateRealm r f).concUsed r' = m.concUsed r' := by
  unfold RateLimiterManager.concUsed
  rw [lookupRealmEntry_updateRealm]
  by_cases h : r' = r
  · simp only [h, if_pos rfl]
    cases lookupRealmEntry m.limiters r <;> simp [hf]
  · simp [h]

theorem concUsed_acquire_release (m : RateLimiterManager) (r r' : String) :
    ((m.updateRealm r acquireRealmConc).updateRealm r releaseRealmConc).concUsed r' =
      m.concUsed r' := by
  unfold RateLimiterManager.concUsed
  rw [lookupRealmEntry_updateRealm, lookupRealmEntry_updateRealm]
  by_cases h : r' = r
  · simp only [h, if_pos rfl]
    cases lookupRealmEntry m.limiters r <;> simp [acquireRealmConc, releaseRealmConc]
  · simp [h]

theorem concUsed_getRealmLimiter (m : RateLimiterManager) (r r' : String) :
    ((m.getRealmLimiter r).2).concUsed r' = m.concUsed r' := by
  unfold RateLimiterManager.getRealmLimiter
  cases h : lookupRealmEntry m.limiters r with
  | some l => simp
  | none =>
    simp only [RateLimiterManager.concUsed]
    by_cases hr : r' = r
    · subst hr
      simp [lookupRealmEntry, h, newRealmRateLimiters]
    · simp [lookupRealmEntry, Ne.symm hr, hr]

theorem lookupRealmEntry_getRealmLimiter_self (m : RateLimiterManager) (r : String) :
    lookupRealmEntry ((m.getRealmLimiter r).2).limiters r = some (m.getRealmLimiter r).1 := by
  unfold RateLimiterManager.getRealmLimiter
  cases h : lookupRealmEntry m.limiters r with
  | some l => simpa using h
  | none => simp [lookupRealmEntry]

theorem getRealmLimiter_of_lookup_some (m : RateLimiterManager) (A : String)
    (l : RealmRateLimiters) (hl : lookupRealmEntry m.limiters A = some l) :
    m.getRealmLimiter A = (l, m) := by
  unfold RateLimiterManager.getRealmLimiter
  simp [hl]

theorem lookupRealmEntry_eq_none_keys (l : List (String × RealmRateLimiters)) (r : String)
    (h : lookupRealmEntry l r = none) : ∀ p ∈ l, p.1 ≠ r := by
  induction l with
  | nil => intro p hp; cases hp
  | cons q t ih =>
    obtain ⟨k, v⟩ := q
    by_cases hq : k = r
    · simp [lookupRealmEntry, hq] at h
    · simp only [lookupRealmEntry, if_neg hq] at h
      intro p hp
      rcases List.mem_cons.mp hp with hp | hp
      · simpa [hp] using hq
      · exact ih h p hp

/-- C3: for every account identifier, getRealmLimiter returns one consistent
RealmRateLimiters instance under the registry mutex, which serializes the
whole lookup-or-create critical section: an existing entry is returned with
the map unchanged; a missing entry is created and inserted exactly once; and
the second of two serialized calls (the order two concurrent first calls are
forced into by the mutex) returns the same instance as the first, leaving the
map unchanged. -/
theorem getRealmLimiter_get_or_create (m : RateLimiterManager) (A : String) :
    (∀ l, lookupRealmEntry m.limiters A = some l → m.getRealmLimiter A = (l, m)) ∧
    (lookupRealmEntry m.limiters A = none →
      (m.getRealmLimiter A).2.limiters = (A, newRealmRateLimiters m.nextId) :: m.limiters ∧
      ((m.getRealmLimiter A).2.limiters.countP fun p => decide (p.1 = A)) = 1) ∧
    (m.getRealmLimiter A).2.getRealmLimiter A = ((m.getRealmLimiter A).1, (m.getRealmLimiter A).2) := by
  refine ⟨?_, ?_, ?_⟩
  · intro l hl
    exact getRealmLimiter_of_lookup_some m A l hl
  · intro hnone
    have hzero : (m.limiters.countP fun p => decide (p.1 = A)) = 0 :=
      List.countP_eq_zero.mpr (by
        intro p hp
        simpa using lookupRealmEntry_eq_none_keys m.limiters A hnone p hp)
    unfold RateLimiterManager.getRealmLimiter
    rw [hnone]
    exact ⟨rfl, by simp [List.countP_cons, hzero]⟩
  · exact getRealmLimiter_of_lookup_some _ A _ (lookupRealmEntry_getRealmLimiter_self m A)

/-- Witness for C3 at concrete registries: a populated entry is returned
unchanged, a missing entry is inserted exactly once, and a repeated call
returns the same instance. -/
theorem getRealmLimiter_get_or_create_witness :
    (lookupRealmEntry ({ nextId := 5, limiters := [("a", newRealmRateLimiters 0)] } :
        RateLimiterManager).limiters "a" = some (newRealmRateLimiters 0) ∧
      ({ nextId := 5, limiters := [("a", newRealmRateLimiters 0)] } :
        RateLimiterManager).getRealmLimiter "a" =
        (newRealmRateLimiters 0, { nextId := 5, limiters := [("a", newRealmRateLimiters 0)] })) ∧
    (lookupRealmEntry ({ nextId := 5, limiters := [("a", newRealmRateLimiters 0)] } :
        RateLimiterManager).limiters "b" = none ∧
      (({ nextId := 5, limiters := [("a", newRealmRateLimiters 0)] } :
        RateLimiterManager).getRealmLimiter "b").2.limiters =
        ("b", newRealmRateLimiters 5) :: [("a", newRealmRateLimiters 0)] ∧
      ((({ nextId := 5, limiters := [("a", newRealmRateLimiters 0)] } :
        RateLimiterManager).getRealmLimiter "b").2.limiters.countP
          fun p => decide (p.1 = "b")) = 1) := by
  refine ⟨⟨by decide, ?_⟩, ⟨by decide, ?_⟩⟩
  · exact (getRealmLimiter_get_or_create { nextId := 5, limiters := [("a", newRealmRateLimiters 0)] }
      "a").1 (newRealmRateLimiters 0) (by decide)
  · exact (getRealmLimiter_get_or_create { nextId := 5, limiters := [("a", newRealmRateLimiters 0)] }
      "b").2.1 (by decide)

theorem concUsed_update_consumeGeneral (m : RateLimiterManager) (r r' : String) :
    (m.updateRealm r consumeGeneralToken).concUsed r' = m.concUsed r' :=
  concUsed_updateRealm_keep m r r' consumeGeneralToken (fun _ => rfl)

theorem concUsed_update_consumeBatch (m : RateLimiterManager) (r r' : String) :
    (m.updateRealm r consumeBatchToken).concUsed r' = m.concUsed r' :=
  concUsed_updateRealm_keep m r r' consumeBatchToken (fun _ => rfl)

set_option maxHeartbeats 2000000 in
/-- C2: every dispatch restores both the global concurrency count and every
realm concurrency count to their pre-call values by the time it returns, on
every outcome (every gate rejection, marshal failure, request-build failure,
transport failure, 429, any other non-200 status, gzip failure, decode
failure, and success). -/
theorem dispatch_restores_concurrency (c : Client) (params : RequestParameters)
    (method endpoint : String) (payloadPresent wantResponse : Bool)
    (queryParameters : List (String × String)) (w : World) :
    (Client.req c params method endpoint payloadPresent wantResponse queryParameters w).client.globalConcurrentUsed
        = c.globalConcurrentUsed ∧
    ∀ r, (Client.req c params method endpoint payloadPresent wantResponse queryParameters w).client.rateLimiter.concUsed r
        = c.rateLimiter.concUsed r := by
  unfold Client.req
  repeat' (first | split | (simp only []; split))
  all_goals refine ⟨by simp [releaseGlobalSlot, releaseRealmSlot], fun r => ?_⟩
  all_goals simp [releaseGlobalSlot, releaseRealmSlot, concUsed_acquire_release,
    concUsed_update_consumeGeneral, concUsed_getRealmLimiter]

/-- A sample oracle in which every external effect succeeds. -/
def sampleWorld : World :=
  { marshal := MarshalResult.ok "", buildOk := true,
    http := HttpResult.response 200 false "", gzipOk := true,
    decode := DecodeResult.ok, faultBody := ⟨0, "", "", ""⟩ }

/-- Sample per-call parameters. -/
def sampleParams : RequestParameters :=
  { RealmId := "r", Token := { AccessToken := "t" } }

/-- C1: within one non-blocking dispatch, quota acquisition happens in the
fixed order global concurrency slot, then global throughput token, then realm
general throughput token, then realm concurrency slot; the first dimension
found exhausted makes the call return immediately a typed RateLimitError
naming exactly that dimension, with no later acquisition attempted and no
HTTP exchange performed. -/
theorem dispatch_gate_order_first_failure (c : Client) (params : RequestParameters)
    (method endpoint : String) (payloadPresent wantResponse : Bool)
    (queryParameters : List (String × String)) (w : World) :
    (¬ c.globalConcurrentUsed < globalConcurrentCap →
      Client.req c params method endpoint payloadPresent wantResponse queryParameters w =
        { result := some (ReqError.rateLimit (NewRateLimitError globalConcurrentRL)),
          events := [Event.acquireGlobalConcurrent], client := c }) ∧
    (c.globalConcurrentUsed < globalConcurrentCap → c.globalTokens = 0 →
      (Client.req c params method endpoint payloadPresent wantResponse queryParameters w).result =
          some (ReqError.rateLimit (NewRateLimitError globalGeneralRL)) ∧
      (Client.req c params method endpoint payloadPresent wantResponse queryParameters w).events =
          [Event.acquireGlobalConcurrent, Event.checkGlobalGeneral] ∧
      ∀ hc, Event.httpExchange hc ∉
        (Client.req c params method endpoint payloadPresent wantResponse queryParameters w).events) ∧
    (c.globalConcurrentUsed < globalConcurrentCap → ¬ c.globalTokens = 0 →
      (c.rateLimiter.getRealmLimiter params.RealmId).1.generalTokens = 0 →
      (Client.req c params method endpoint payloadPresent wantResponse queryParameters w).result =
          some (ReqError.rateLimit (NewRateLimitError realmGeneralRL)) ∧
      (Client.req c params method endpoint payloadPresent wantResponse queryParameters w).events =
          [Event.acquireGlobalConcurrent, Event.checkGlobalGeneral,
           Event.lookupRealm params.RealmId, Event.checkRealmGeneral] ∧
      ∀ hc, Event.httpExchange hc ∉
        (Client.req c params method endpoint payloadPresent wantResponse queryParameters w).events) ∧
    (c.globalConcurrentUsed < globalConcurrentCap → ¬ c.globalTokens = 0 →
      ¬ (c.rateLimiter.getRealmLimiter params.RealmId).1.generalTokens = 0 →
      ¬ (c.rateLimiter.getRealmLimiter params.RealmId).1.concurrentUsed < realmConcurrentCap →
      (Client.req c params method endpoint payloadPresent wantResponse queryParameters w).result =
          some (ReqError.rateLimit (NewRateLimitError realmConcurrentRL)) ∧
      (Client.req c params method endpoint payloadPresent wantResponse queryParameters w).events =
          [Event.acquireGlobalConcurrent, Event.checkGlobalGeneral,
           Event.lookupRealm params.RealmId, Event.checkRealmGeneral,
           Event.acquireRealmConcurrent] ∧
      ∀ hc, Event.httpExchange hc ∉
        (Client.req c params method endpoint payloadPresent wantResponse queryParameters w).events) := by
  refine ⟨?_, ?_, ?_, ?_⟩
  · intro h₁
    unfold Client.req
    simp [h₁]
  · intro h₁ h₂
    unfold Client.req
    simp [h₁, h₂]
  · intro h₁ h₂ h₃
    unfold Client.req
    simp [h₁, h₂, h₃]
  · intro h₁ h₂ h₃ h₄
    unfold Client.req
    simp [h₁, h₂, h₃, h₄]

/-! Values lemmas. -/

theorem Values.get_set_self (v : Values) (k val : String) :
    (Values.set v k val).get k = [val] := by
  induction v with
  | nil => simp [Values.set, Values.get]
  | cons p rest ih =>
    obtain ⟨k', vs⟩ := p
    by_cases h : k' = k
    · simp [Values.set, Values.get, h]
    · simp [Values.set, Values.get, h, ih]

theorem Values.get_set_other (v : Values) (k val k' : String) (h : k' ≠ k) :
    (Values.set v k val).get k' = v.get k' := by
  induction v with
  | nil => simp [Values.set, Values.get, Ne.symm h]
  | cons p rest ih =>
    obtain ⟨k₀, vs⟩ := p
    by_cases h₀ : k₀ = k
    · subst h₀
      simp [Values.set, Values.get, Ne.symm h]
    · by_cases h₁ : k₀ = k' <;> simp [Values.set, Values.get, h₀, h₁, h, ih]

theorem Values.get_add_mono (v : Values) (k val k' x : String)
    (hx : x ∈ v.get k') : x ∈ (Values.add v k val).get k' := by
  induction v with
  | nil =>
    simp [Values.get] at hx
  | cons p rest ih =>
    obtain ⟨k₀, vs⟩ := p
    by_cases h₀ : k₀ = k
    · subst h₀
      by_cases h₁ : k₀ = k'
      · subst h₁
        simp [Values.get] at hx
        simp [Values.add, Values.get, hx]
      · simp [Values.get, h₁] at hx
        simp [Values.add, Values.get, h₁, hx]
    · by_cases h₁ : k₀ = k'
      · subst h₁
        simp [Values.get] at hx
        simp [Values.add, Values.get, h₀, hx]
      · simp [Values.get, h₁] at hx
        simp [Values.add, Values.get, h₀, h₁, ih hx]

theorem Values.mem_get_add_self (v : Values) (k val : String) :
    val ∈ (Values.add v k val).get k := by
  induction v with
  | nil => simp [Values.add, Values.get]
  | cons p rest ih =>
    obtain ⟨k₀, vs⟩ := p
    by_cases h₀ : k₀ = k
    · subst h₀
      simp [Values.add, Values.get]
    · simp [Values.add, Values.get, h₀, ih]

theorem mem_get_foldl_add (qp : List (String × String)) (acc : Values) (k val : String)
    (h : (k, val) ∈ qp ∨ val ∈ acc.get k) :
    val ∈ (qp.foldl (fun a p => Values.add a p.1 p.2) acc).get k := by
  induction qp generalizing acc with
  | nil =>
    rcases h with h | h
    · cases h
    · simpa using h
  | cons p rest ih =>
    obtain ⟨k₀, v₀⟩ := p
    rcases h with h | h
    · rcases List.mem_cons.mp h with h | h
      · injection h with h1 h2
        subst h1
        subst h2
        exact ih (Values.add acc k val) (Or.inr (Values.mem_get_add_self acc k val))
      · exact ih _ (Or.inl h)
    · exact ih _ (Or.inr (Values.get_add_mono acc k₀ v₀ k val h))

theorem buildQueryValues_get_minorversion (qp : List (String × String)) (mv : String) :
    (buildQueryValues qp mv).get "minorversion" = [mv] :=
  Values.get_set_self _ "minorversion" mv

theorem buildQueryValues_mem_other (qp : List (String × String)) (mv k val : String)
    (hk : k ≠ "minorversion") (h : (k, val) ∈ qp) :
    val ∈ (buildQueryValues qp mv).get k := by
  unfold buildQueryValues
  rw [Values.get_set_other _ _ _ _ hk]
  exact mem_get_foldl_add qp [] k val (Or.inl h)

/-- Shared description of the HTTP exchange a dispatch performs once every
gate admits it and the request is built: the event trace is the gate trace
followed by exactly one httpExchange carrying the URL, query and headers the
source assembles. -/
theorem req_events_http (c : Client) (params : RequestParameters)
    (method endpoint : String) (payloadPresent wantResponse : Bool)
    (queryParameters : List (String × String)) (w : World) (body : String)
    (h₁ : c.globalConcurrentUsed < globalConcurrentCap)
    (h₂ : ¬ c.globalTokens = 0)
    (h₃ : ¬ (c.rateLimiter.getRealmLimiter params.RealmId).1.generalTokens = 0)
    (h₄ : (c.rateLimiter.getRealmLimiter params.RealmId).1.concurrentUsed < realmConcurrentCap)
    (h₅ : (if payloadPresent then w.marshal else MarshalResult.ok "") = MarshalResult.ok body)
    (h₆ : w.buildOk = true) :
    (Client.req c params method endpoint payloadPresent wantResponse queryParameters w).events =
      gateEvents params.RealmId ++ [Event.httpExchange
        { method := method,
          urlPath := c.baseEndpoint ++ params.RealmId ++ "/" ++ endpoint,
          query := buildQueryValues queryParameters c.minorVersion,
          headers := [("Accept", "application/json"),
                      ("Accept-Encoding", "gzip"),
                      ("Content-Type", "application/json"),
                      ("Authorization", "Bearer " ++ params.Token.AccessToken)],
          body := body }] := by
  unfold Client.req
  simp only [if_pos h₁]
  try simp only []
  rw [if_neg (by simpa using h₂)]
  try simp only []
  rw [if_neg (by simpa using h₃)]
  try simp only []
  rw [if_pos (by simpa using h₄)]
  try simp only []
  rw [h₅]
  simp only [h₆, if_pos rfl]
  cases w.http with
  | transportErr m => simp
  | response status gz bd =>
    by_cases hs : status = 200
    · simp only [hs, if_pos rfl]
      by_cases hg : (gz && !w.gzipOk) = true
      · simp [hg]
      · cases wantResponse with
        | false => simp [hg]
        | true =>
          cases w.decode with
          | ok => simp [hg]
          | err m => simp [hg]
    · by_cases h429 : status = 429 <;> simp [hs, h429]

/-- Sample client whose global concurrency channel is full. -/
def clientGlobalConcFull : Client :=
  { baseEndpoint := "b/", minorVersion := "75", rateLimiter := NewRateLimiterManager,
    globalConcurrentUsed := 10, globalTokens := 10 }

/-- Sample client whose global general bucket is exhausted. -/
def clientGlobalTokensEmpty : Client :=
  { baseEndpoint := "b/", minorVersion := "75", rateLimiter := NewRateLimiterManager,
    globalConcurrentUsed := 0, globalTokens := 0 }

/-- Sample client whose realm general bucket for realm r is exhausted. -/
def clientRealmGeneralEmpty : Client :=
  { baseEndpoint := "b/", minorVersion := "75",
    rateLimiter := { nextId := 1, limiters :=
      [("r", { generalTokens := 0, concurrentUsed := 0, batchTokens := 5, trackerId := 0 })] },
    globalConcurrentUsed := 0, globalTokens := 10 }

/-- Sample client whose realm concurrency channel for realm r is full. -/
def clientRealmConcFull : Client :=
  { baseEndpoint := "b/", minorVersion := "75",
    rateLimiter := { nextId := 1, limiters :=
      [("r", { generalTokens := 3, concurrentUsed := 10, batchTokens := 5, trackerId := 0 })] },
    globalConcurrentUsed := 0, globalTokens := 10 }

/-- Witness for C1: each of the four exhausted dimensions, at a concrete
client, yields exactly its own typed error. -/
theorem dispatch_gate_order_first_failure_witness :
    (¬ clientGlobalConcFull.globalConcurrentUsed < globalConcurrentCap ∧
      Client.req clientGlobalConcFull sampleParams "GET" "e" false false [] sampleWorld =
        { result := some (ReqError.rateLimit (NewRateLimitError globalConcurrentRL)),
          events := [Event.acquireGlobalConcurrent], client := clientGlobalConcFull }) ∧
    (clientGlobalTokensEmpty.globalConcurrentUsed < globalConcurrentCap ∧
      clientGlobalTokensEmpty.globalTokens = 0 ∧
      (Client.req clientGlobalTokensEmpty sampleParams "GET" "e" false false [] sampleWorld).result =
        some (ReqError.rateLimit (NewRateLimitError globalGeneralRL))) ∧
    ((clientRealmGeneralEmpty.rateLimiter.getRealmLimiter sampleParams.RealmId).1.generalTokens = 0 ∧
      (Client.req clientRealmGeneralEmpty sampleParams "GET" "e" false false [] sampleWorld).result =
        some (ReqError.rateLimit (NewRateLimitError realmGeneralRL))) ∧
    (¬ (clientRealmConcFull.rateLimiter.getRealmLimiter sampleParams.RealmId).1.concurrentUsed <
        realmConcurrentCap ∧
      (Client.req clientRealmConcFull sampleParams "GET" "e" false false [] sampleWorld).result =
        some (ReqError.rateLimit (NewRateLimitError realmConcurrentRL))) := by
  refine ⟨⟨by decide, ?_⟩, ⟨by decide, by decide, ?_⟩, ⟨by decide, ?_⟩, ⟨by decide, ?_⟩⟩
  · exact (dispatch_gate_order_first_failure clientGlobalConcFull sampleParams "GET" "e"
      false false [] sampleWorld).1 (by decide)
  · exact ((dispatch_gate_order_first_failure clientGlobalTokensEmpty sampleParams "GET" "e"
      false false [] sampleWorld).2.1 (by decide) (by decide)).1
  · exact ((dispatch_gate_order_first_failure clientRealmGeneralEmpty sampleParams "GET" "e"
      false false [] sampleWorld).2.2.1 (by decide) (by decide) (by decide)).1
  · exact ((dispatch_gate_order_first_failure clientRealmConcFull sampleParams "GET" "e"
      false false [] sampleWorld).2.2.2 (by decide) (by decide) (by decide) (by decide)).1

/-- C5: a dispatch whose HTTP exchange completes with status 429 returns the
rate-limit error attributed to the external api, which is distinct from every
locally-enforced gate rejection kind, and never the requestFailure kind that
parseFailure produces for other non-200 statuses. -/
theorem dispatch_429_remote_rate_limited (c : Client) (params : RequestParameters)
    (method endpoint : String) (payloadPresent wantResponse : Bool)
    (queryParameters : List (String × String)) (w : World) (body : String)
    (gz : Bool) (bd : String)
    (h₁ : c.globalConcurrentUsed < globalConcurrentCap)
    (h₂ : ¬ c.globalTokens = 0)
    (h₃ : ¬ (c.rateLimiter.getRealmLimiter params.RealmId).1.generalTokens = 0)
    (h₄ : (c.rateLimiter.getRealmLimiter params.RealmId).1.concurrentUsed < realmConcurrentCap)
    (h₅ : (if payloadPresent then w.marshal else MarshalResult.ok "") = MarshalResult.ok body)
    (h₆ : w.buildOk = true)
    (h₇ : w.http = HttpResult.response 429 gz bd) :
    (Client.req c params method endpoint payloadPresent wantResponse queryParameters w).result =
        some (ReqError.rateLimit (NewRateLimitError apiRl)) ∧
    (∀ f, (Client.req c params method endpoint payloadPresent wantResponse queryParameters w).result ≠
        some (ReqError.requestFailure f)) ∧
    apiRl ≠ globalConcurrentRL ∧ apiRl ≠ globalGeneralRL ∧
    apiRl ≠ realmGeneralRL ∧ apiRl ≠ realmConcurrentRL ∧ apiRl ≠ realmBatchRL := by
  have hres : (Client.req c params method endpoint payloadPresent wantResponse queryParameters w).result =
      some (ReqError.rateLimit (NewRateLimitError apiRl)) := by
    unfold Client.req
    simp only [if_pos h₁]
    try simp only []
    rw [if_neg (by simpa using h₂)]
    try simp only []
    rw [if_neg (by simpa using h₃)]
    try simp only []
    rw [if_pos (by simpa using h₄)]
    try simp only []
    rw [h₅]
    simp only [h₆, if_pos rfl]
    rw [h₇]
    simp
  refine ⟨hres, ?_, by decide, by decide, by decide, by decide, by decide⟩
  intro f hf
  rw [hres] at hf
  simp at hf

/-- Witness for C5: a concrete dispatch that is admitted locally but receives
a 429 from the remote service. -/
theorem dispatch_429_remote_rate_limited_witness :
    (NewClient { Endpoint := "https://x", MinorVersion := "" }).globalConcurrentUsed <
        globalConcurrentCap ∧
    (Client.req (NewClient { Endpoint := "https://x", MinorVersion := "" }) sampleParams
        "GET" "e" false false []
        { marshal := MarshalResult.ok "", buildOk := true,
          http := HttpResult.response 429 false "", gzipOk := true,
          decode := DecodeResult.ok, faultBody := ⟨0, "", "", ""⟩ }).result =
      some (ReqError.rateLimit (NewRateLimitError apiRl)) ∧
    apiRl ≠ globalConcurrentRL := by
  refine ⟨by decide, ?_, ?_⟩
  · exact (dispatch_429_remote_rate_limited (NewClient { Endpoint := "https://x", MinorVersion := "" })
      sampleParams "GET" "e" false false []
      { marshal := MarshalResult.ok "", buildOk := true,
        http := HttpResult.response 429 false "", gzipOk := true,
        decode := DecodeResult.ok, faultBody := ⟨0, "", "", ""⟩ }
      "" false "" (by decide) (by decide) (by decide) (by decide) rfl rfl rfl).1
  · exact (dispatch_429_remote_rate_limited (NewClient { Endpoint := "https://x", MinorVersion := "" })
      sampleParams "GET" "e" false false []
      { marshal := MarshalResult.ok "", buildOk := true,
        http := HttpResult.response 429 false "", gzipOk := true,
        decode := DecodeResult.ok, faultBody := ⟨0, "", "", ""⟩ }
      "" false "" (by decide) (by decide) (by decide) (by decide) rfl rfl rfl).2.2.1

/-- Counterexample for C8 as stated: a caller that itself passes a
minorversion query parameter does not find it in the dispatched query
string, because Values.Set overwrites it with the client's value. The
dispatched request of this concrete call carries minorversion 75 only, so
the caller's pair (minorversion, 99) is not contained in the query. -/
theorem dispatch_request_shape_cex :
    (Client.req (NewClient { Endpoint := "https://x", MinorVersion := "" }) sampleParams
        "GET" "e" false false [("minorversion", "99")] sampleWorld).events =
      gateEvents "r" ++ [Event.httpExchange
        { method := "GET", urlPath := "https://x/v3/company/r/e",
          query := [("minorversion", ["75"])],
          headers := [("Accept", "application/json"),
                      ("Accept-Encoding", "gzip"),
                      ("Content-Type", "application/json"),
                      ("Authorization", "Bearer t")],
          body := "" }] ∧
    ("99" ∈ (buildQueryValues [("minorversion", "99")]
        (NewClient { Endpoint := "https://x", MinorVersion := "" }).minorVersion).get "minorversion"
      → False) := by
  constructor
  · decide
  · decide

/-- C8 (amended): every dispatched request goes to the configured base
endpoint plus /v3/company/ plus the account id plus / plus the descriptor
path; its query contains every caller parameter other than a caller-supplied
minorversion (which is overwritten) plus the client's minorversion value; the
headers always include Accept and the bearer Authorization, and Content-Type
is attached whenever a body is present (the source attaches it always). -/
theorem dispatch_request_shape (cr : ClientRequest) (params : RequestParameters)
    (method endpoint : String) (payloadPresent wantResponse : Bool)
    (queryParameters : List (String × String)) (w : World) (body : String)
    (h₁ : (NewClient cr).globalConcurrentUsed < globalConcurrentCap)
    (h₂ : ¬ (NewClient cr).globalTokens = 0)
    (h₃ : ¬ ((NewClient cr).rateLimiter.getRealmLimiter params.RealmId).1.generalTokens = 0)
    (h₄ : ((NewClient cr).rateLimiter.getRealmLimiter params.RealmId).1.concurrentUsed <
      realmConcurrentCap)
    (h₅ : (if payloadPresent then w.marshal else MarshalResult.ok "") = MarshalResult.ok body)
    (h₆ : w.buildOk = true) :
    (Client.req (NewClient cr) params method endpoint payloadPresent wantResponse queryParameters
        w).events =
      gateEvents params.RealmId ++ [Event.httpExchange
        { method := method,
          urlPath := cr.Endpoint ++ "/v3/company/" ++ params.RealmId ++ "/" ++ endpoint,
          query := buildQueryValues queryParameters (NewClient cr).minorVersion,
          headers := [("Accept", "application/json"),
                      ("Accept-Encoding", "gzip"),
                      ("Content-Type", "application/json"),
                      ("Authorization", "Bearer " ++ params.Token.AccessToken)],
          body := body }] ∧
    (∀ k v, (k, v) ∈ queryParameters → k ≠ "minorversion" →
      v ∈ (buildQueryValues queryParameters (NewClient cr).minorVersion).get k) ∧
    (buildQueryValues queryParameters (NewClient cr).minorVersion).get "minorversion" =
      [(NewClient cr).minorVersion] := by
  refine ⟨?_, ?_, buildQueryValues_get_minorversion _ _⟩
  · have h := req_events_http (NewClient cr) params method endpoint payloadPresent wantResponse
      queryParameters w body h₁ h₂ h₃ h₄ h₅ h₆
    rw [h]
    have hbase : (NewClient cr).baseEndpoint ++ params.RealmId ++ "/" ++ endpoint =
        cr.Endpoint ++ "/v3/company/" ++ params.RealmId ++ "/" ++ endpoint := by
      simp [NewClient, String.append_assoc]
    rw [hbase]
  · intro k v hmem hk
    exact buildQueryValues_mem_other queryParameters _ k v hk hmem

/-- Witness for C8 (amended) at a concrete dispatch. -/
theorem dispatch_request_shape_witness :
    ((if false then sampleWorld.marshal else MarshalResult.ok "") = MarshalResult.ok "" ∧
      sampleWorld.buildOk = true) ∧
    (Client.req (NewClient { Endpoint := "https://x", MinorVersion := "" }) sampleParams
        "GET" "e" false false [("query", "select")] sampleWorld).events =
      gateEvents "r" ++ [Event.httpExchange
        { method := "GET",
          urlPath := "https://x" ++ "/v3/company/" ++ "r" ++ "/" ++ "e",
          query := buildQueryValues [("query", "select")]
            (NewClient { Endpoint := "https://x", MinorVersion := "" }).minorVersion,
          headers := [("Accept", "application/json"),
                      ("Accept-Encoding", "gzip"),
                      ("Content-Type", "application/json"),
                      ("Authorization", "Bearer " ++ "t")],
          body := "" }] ∧
    (buildQueryValues [("query", "select")]
        (NewClient { Endpoint := "https://x", MinorVersion := "" }).minorVersion).get "minorversion" =
      [(NewClient { Endpoint := "https://x", MinorVersion := "" }).minorVersion] := by
  refine ⟨⟨rfl, rfl⟩, ?_, ?_⟩
  · exact (dispatch_request_shape { Endpoint := "https://x", MinorVersion := "" } sampleParams
      "GET" "e" false false [("query", "select")] sampleWorld ""
      (by decide) (by decide) (by decide) (by decide) rfl rfl).1
  · exact (dispatch_request_shape { Endpoint := "https://x", MinorVersion := "" } sampleParams
      "GET" "e" false false [("query", "select")] sampleWorld ""
      (by decide) (by decide) (by decide) (by decide) rfl rfl).2.2

/-- C9: the outgoing query always carries exactly one minorversion value,
the client's configured one — a caller-supplied minorversion parameter is
silently overwritten — and a client constructed with an empty minor version
defaults it to 75. -/
theorem dispatch_minorversion_policy (c : Client) (params : RequestParameters)
    (method endpoint : String) (payloadPresent wantResponse : Bool)
    (queryParameters : List (String × String)) (w : World) (body : String)
    (h₁ : c.globalConcurrentUsed < globalConcurrentCap)
    (h₂ : ¬ c.globalTokens = 0)
    (h₃ : ¬ (c.rateLimiter.getRealmLimiter params.RealmId).1.generalTokens = 0)
    (h₄ : (c.rateLimiter.getRealmLimiter params.RealmId).1.concurrentUsed < realmConcurrentCap)
    (h₅ : (if payloadPresent then w.marshal else MarshalResult.ok "") = MarshalResult.ok body)
    (h₆ : w.buildOk = true) :
    (Client.req c params method endpoint payloadPresent wantResponse queryParameters w).events =
      gateEvents params.RealmId ++ [Event.httpExchange
        { method := method,
          urlPath := c.baseEndpoint ++ params.RealmId ++ "/" ++ endpoint,
          query := buildQueryValues queryParameters c.minorVersion,
          headers := [("Accept", "application/json"),
                      ("Accept-Encoding", "gzip"),
                      ("Content-Type", "application/json"),
                      ("Authorization", "Bearer " ++ params.Token.AccessToken)],
          body := body }] ∧
    (buildQueryValues queryParameters c.minorVersion).get "minorversion" = [c.minorVersion] ∧
    (∀ cr : ClientRequest, cr.MinorVersion = "" → (NewClient cr).minorVersion = "75") := by
  refine ⟨req_events_http c params method endpoint payloadPresent wantResponse queryParameters
      w body h₁ h₂ h₃ h₄ h₅ h₆,
    buildQueryValues_get_minorversion _ _, ?_⟩
  intro cr hcr
  simp [NewClient, hcr]

/-- Witness for C9: a concrete dispatch whose caller passes minorversion 99
still sends exactly minorversion 75. -/
theorem dispatch_minorversion_policy_witness :
    (NewClient { Endpoint := "https://x", MinorVersion := "" }).globalConcurrentUsed <
        globalConcurrentCap ∧
    (buildQueryValues [("minorversion", "99")]
        (NewClient { Endpoint := "https://x", MinorVersion := "" }).minorVersion).get "minorversion" =
      [(NewClient { Endpoint := "https://x", MinorVersion := "" }).minorVersion] := by
  refine ⟨by decide, ?_⟩
  exact (dispatch_minorversion_policy (NewClient { Endpoint := "https://x", MinorVersion := "" })
    sampleParams "GET" "e" false false [("minorversion", "99")] sampleWorld ""
    (by decide) (by decide) (by decide) (by decide) rfl rfl).2.1

/-- Whether this oracle lets a payload-carrying, response-decoding dispatch
through: marshalling, request construction, a 200 response whose gzip
encoding (if any) can be read, and decoding all succeed. -/
def World.succeeds (w : World) : Bool :=
  (match w.marshal with
    | MarshalResult.ok _ => true
    | MarshalResult.err _ => false) &&
  w.buildOk &&
  (match w.http with
    | HttpResult.response status gz _ => (status == 200) && (!gz || w.gzipOk)
    | HttpResult.transportErr _ => false) &&
  (match w.decode with
    | DecodeResult.ok => true
    | DecodeResult.err _ => false)

/-- The general-bucket tokens a dispatch for this realm would observe: those
of the stored bundle, or of a fresh bundle when none exists yet. -/
def RateLimiterManager.generalAvail (m : RateLimiterManager) (r : String) : Nat :=
  ((m.getRealmLimiter r).1).generalTokens

theorem fetch_concurrentUsed_eq_concUsed (m : RateLimiterManager) (r : String) :
    ((m.getRealmLimiter r).1).concurrentUsed = m.concUsed r := by
  unfold RateLimiterManager.getRealmLimiter RateLimiterManager.concUsed
  cases h : lookupRealmEntry m.limiters r <;> simp [newRealmRateLimiters]

theorem getRealmLimiter_after_chain (M : RateLimiterManager) (r : String)
    (l : RealmRateLimiters) (hl : lookupRealmEntry M.limiters r = some l)
    (f g h : RealmRateLimiters → RealmRateLimiters) :
    (((M.updateRealm r f).updateRealm r g).updateRealm r h).getRealmLimiter r =
      (h (g (f l)), ((M.updateRealm r f).updateRealm r g).updateRealm r h) := by
  apply getRealmLimiter_of_lookup_some
  rw [lookupRealmEntry_updateRealm, lookupRealmEntry_updateRealm, lookupRealmEntry_updateRealm]
  simp [hl]

theorem getRealmLimiter_batch_fetch (m : RateLimiterManager) (r : String) :
    (((m.getRealmLimiter r).2).updateRealm r consumeBatchToken).getRealmLimiter r =
      (consumeBatchToken (m.getRealmLimiter r).1,
        ((m.getRealmLimiter r).2).updateRealm r consumeBatchToken) := by
  apply getRealmLimiter_of_lookup_some
  rw [lookupRealmEntry_updateRealm]
  simp [lookupRealmEntry_getRealmLimiter_self]

/-- Shape of a fully admitted and successful dispatch: a nil error and the
client after the deferred releases, with one global token and one realm
general token consumed. -/
theorem req_success (c : Client) (params : RequestParameters)
    (method endpoint : String) (payloadPresent wantResponse : Bool)
    (queryParameters : List (String × String)) (w : World) (body : String)
    (gz : Bool) (bd : String)
    (h₁ : c.globalConcurrentUsed < globalConcurrentCap)
    (h₂ : ¬ c.globalTokens = 0)
    (h₃ : ¬ (c.rateLimiter.getRealmLimiter params.RealmId).1.generalTokens = 0)
    (h₄ : (c.rateLimiter.getRealmLimiter params.RealmId).1.concurrentUsed < realmConcurrentCap)
    (h₅ : (if payloadPresent then w.marshal else MarshalResult.ok "") = MarshalResult.ok body)
    (h₆ : w.buildOk = true)
    (h₇ : w.http = HttpResult.response 200 gz bd)
    (h₈ : (gz && !w.gzipOk) = false)
    (h₉ : w.decode = DecodeResult.ok) :
    (Client.req c params method endpoint payloadPresent wantResponse queryParameters w).result =
      none ∧
    (Client.req c params method endpoint payloadPresent wantResponse queryParameters w).client =
      { c with
        rateLimiter := ((((c.rateLimiter.getRealmLimiter params.RealmId).2.updateRealm
            params.RealmId consumeGeneralToken).updateRealm params.RealmId
            acquireRealmConc).updateRealm params.RealmId releaseRealmConc),
        globalConcurrentUsed := c.globalConcurrentUsed + 1 - 1,
        globalTokens := c.globalTokens - 1 } := by
  unfold Client.req
  simp only [if_pos h₁]
  try simp only []
  rw [if_neg (by simpa using h₂)]
  try simp only []
  rw [if_neg (by simpa using h₃)]
  try simp only []
  rw [if_pos (by simpa using h₄)]
  try simp only []
  rw [h₅]
  simp only [h₆, if_pos rfl]
  rw [h₇]
  simp only [if_pos rfl, h₈, h₉]
  cases wantResponse <;>
    simp [releaseGlobalSlot, releaseRealmSlot]

/-- Quota precondition letting k successive dispatches for one realm through
all four admission gates: a free global slot, at least k global and k realm
general tokens, and a free realm concurrency slot. -/
def CanServe (c : Client) (r : String) (k : Nat) : Prop :=
  c.globalConcurrentUsed < globalConcurrentCap ∧
  k ≤ c.globalTokens ∧
  k ≤ c.rateLimiter.generalAvail r ∧
  c.rateLimiter.concUsed r < realmConcurrentCap

instance (c : Client) (r : String) (k : Nat) : Decidable (CanServe c r k) := by
  unfold CanServe
  infer_instance

/-- One successful batch dispatch: with quota for k+1 calls and a succeeding
oracle, the call returns nil, quota for k calls remains, and its event trace
is the realm lookup, the batch-limiter wait, the four admission gates and
exactly one HTTP exchange, in that order. -/
theorem batch_success_step (c : Client) (params : RequestParameters) (w : World) (k : Nat)
    (hcs : CanServe c params.RealmId (k + 1)) (hw : w.succeeds = true) :
    (Client.batch c false params true w).result = none ∧
    CanServe (Client.batch c false params true w).client params.RealmId k ∧
    ∃ call, (Client.batch c false params true w).events =
      Event.lookupRealm params.RealmId :: Event.batchWait params.RealmId ::
        (gateEvents params.RealmId ++ [Event.httpExchange call]) := by
  obtain ⟨h₁, h₂, h₃, h₄⟩ := hcs
  obtain ⟨body, hmar⟩ : ∃ body, w.marshal = MarshalResult.ok body := by
    cases hm : w.marshal with
    | ok b => exact ⟨b, rfl⟩
    | err m => simp [World.succeeds, hm] at hw
  have hbuild : w.buildOk = true := by
    cases hb : w.buildOk with
    | true => rfl
    | false => simp [World.succeeds, hb] at hw
  obtain ⟨gz, bd, hhttp, hgz⟩ :
      ∃ gz bd, w.http = HttpResult.response 200 gz bd ∧ (gz && !w.gzipOk) = false := by
    cases hh : w.http with
    | transportErr m => simp [World.succeeds, hh] at hw
    | response status gz bd =>
      simp only [World.succeeds, hh, Bool.and_eq_true, beq_iff_eq] at hw
      obtain ⟨⟨⟨-, -⟩, hs, hg⟩, -⟩ := hw
      subst hs
      refine ⟨gz, bd, rfl, ?_⟩
      cases gz <;> simp_all
  have hdec : w.decode = DecodeResult.ok := by
    cases hd : w.decode with
    | ok => rfl
    | err m => simp [World.succeeds, hd] at hw
  set r := params.RealmId with hr
  set fetch := (c.rateLimiter.getRealmLimiter r).1 with hfetch
  set M₂ := ((c.rateLimiter.getRealmLimiter r).2).updateRealm r consumeBatchToken with hM₂
  have hbf : M₂.getRealmLimiter r = (consumeBatchToken fetch, M₂) :=
    getRealmLimiter_batch_fetch c.rateLimiter r
  have hlM₂ : lookupRealmEntry M₂.limiters r = some (consumeBatchToken fetch) := by
    rw [hM₂, lookupRealmEntry_updateRealm]
    simp [lookupRealmEntry_getRealmLimiter_self]
  have havail : fetch.generalTokens = c.rateLimiter.generalAvail r := rfl
  have hcu : fetch.concurrentUsed = c.rateLimiter.concUsed r :=
    fetch_concurrentUsed_eq_concUsed c.rateLimiter r
  -- the client the inner Client.req runs on
  have hstep : ∀ c₂ : Client, c₂.rateLimiter = M₂ →
      c₂.globalConcurrentUsed = c.globalConcurrentUsed →
      c₂.globalTokens = c.globalTokens →
      (Client.req c₂ params "POST" "batch" true true [] w).result = none ∧
      CanServe (Client.req c₂ params "POST" "batch" true true [] w).client r k ∧
      ∃ call, (Client.req c₂ params "POST" "batch" true true [] w).events =
        gateEvents r ++ [Event.httpExchange call] := by
    intro c₂ hm hg ht
    have hc1 : c₂.globalConcurrentUsed < globalConcurrentCap := by rw [hg]; exact h₁
    have hc2 : ¬ c₂.globalTokens = 0 := by rw [ht]; omega
    have hc3 : ¬ (c₂.rateLimiter.getRealmLimiter r).1.generalTokens = 0 := by
      rw [hm, hbf]
      simp only [consumeBatchToken]
      omega
    have hc4 : (c₂.rateLimiter.getRealmLimiter r).1.concurrentUsed < realmConcurrentCap := by
      rw [hm, hbf]
      simpa [consumeBatchToken, hcu] using h₄
    have h₅ : (if true then w.marshal else MarshalResult.ok "") = MarshalResult.ok body := by
      simpa using hmar
    have hres := req_success c₂ params "POST" "batch" true true [] w body gz bd
      hc1 hc2 hc3 hc4 h₅ hbuild hhttp hgz hdec
    have hev := req_events_http c₂ params "POST" "batch" true true [] w body
      hc1 hc2 hc3 hc4 h₅ hbuild
    refine ⟨hres.1, ?_, ⟨_, hev⟩⟩
    rw [hres.2]
    have hsnd : (c₂.rateLimiter.getRealmLimiter r).2 = M₂ := by rw [hm, hbf]
    refine ⟨by simpa using hc1, by simp [ht]; omega, ?_, ?_⟩
    · show k ≤ RateLimiterManager.generalAvail _ r
      unfold RateLimiterManager.generalAvail
      rw [hsnd, getRealmLimiter_after_chain M₂ r (consumeBatchToken fetch) hlM₂]
      simp only [releaseRealmConc, acquireRealmConc, consumeGeneralToken, consumeBatchToken]
      omega
    · show RateLimiterManager.concUsed _ r < realmConcurrentCap
      unfold RateLimiterManager.concUsed
      rw [hsnd, lookupRealmEntry_updateRealm, lookupRealmEntry_updateRealm,
        lookupRealmEntry_updateRealm]
      simp only [if_pos rfl, hlM₂, Option.map_some]
      simpa [releaseRealmConc, acquireRealmConc, consumeGeneralToken, consumeBatchToken, hcu]
        using h₄
  -- unfold Client.batch down to the inner Client.req
  unfold Client.batch
  simp only [Bool.false_eq_true, if_false]
  try simp only []
  obtain ⟨hrn, hcs2, call, hev⟩ := hstep { c with rateLimiter := M₂ } rfl rfl rfl
  refine ⟨hrn, hcs2, call, ?_⟩
  show Event.lookupRealm r :: Event.batchWait r ::
      (Client.req { c with rateLimiter := M₂ } params "POST" "batch" true true [] w).events = _
  rw [hev]

theorem chunks30_nil : chunks30 [] = [] := by
  rw [chunks30]
  simp

theorem chunks30_cons (l : List BatchItemRequest) (h : l ≠ []) :
    chunks30 l = l.take 30 :: chunks30 (l.drop 30) := by
  rw [chunks30]
  simp [h]

theorem chunks30_flatten (l : List BatchItemRequest) : (chunks30 l).flatten = l := by
  generalize hn : l.length = n
  induction n using Nat.strong_induction_on generalizing l with
  | _ n ih =>
    by_cases h : l = []
    · simp [h, chunks30_nil]
    · rw [chunks30_cons l h]
      have hpos : 0 < l.length := List.length_pos.mpr h
      have hlen : (l.drop 30).length < n := by
        rw [← hn]
        simp only [List.length_drop]
        omega
      simp only [List.flatten_cons]
      rw [ih _ hlen (l.drop 30) rfl]
      exact List.take_append_drop 30 l

theorem chunks30_mem (l ch : List BatchItemRequest) (h : ch ∈ chunks30 l) :
    ch.length ≤ 30 ∧ ch ≠ [] := by
  generalize hn : l.length = n
  induction n using Nat.strong_induction_on generalizing l ch with
  | _ n ih =>
    by_cases hl : l = []
    · rw [hl, chunks30_nil] at h
      cases h
    · rw [chunks30_cons l hl] at h
      have hpos : 0 < l.length := List.length_pos.mpr hl
      rcases List.mem_cons.mp h with h | h
      · subst h
        refine ⟨by simp only [List.length_take]; omega, ?_⟩
        intro hnil
        rcases List.take_eq_nil_iff.mp hnil with h30 | hnil'
        · exact absurd h30 (by omega)
        · exact hl hnil'
      · have hlen : (l.drop 30).length < n := by
          rw [← hn]
          simp only [List.length_drop]
          omega
        exact ih _ hlen (l.drop 30) ch h rfl

theorem chunks30_sizes_65 (l : List BatchItemRequest) (h : l.length = 65) :
    (chunks30 l).map List.length = [30, 30, 5] := by
  have h0 : l ≠ [] := by
    intro hh
    rw [hh] at h
    simp at h
  have h1 : l.drop 30 ≠ [] := by
    intro hh
    have := congrArg List.length hh
    simp [List.length_drop, h] at this
  have h2 : (l.drop 30).drop 30 ≠ [] := by
    intro hh
    have := congrArg List.length hh
    simp [List.length_drop, h] at this
  have h3 : ((l.drop 30).drop 30).drop 30 = [] := by
    apply List.drop_eq_nil_iff.mpr
    simp [List.length_drop, h]
  rw [chunks30_cons l h0, chunks30_cons _ h1, chunks30_cons _ h2, h3, chunks30_nil]
  simp only [List.map_cons, List.map_nil, List.length_take, List.length_drop, h]
  norm_num

/-- Whether an event trace performs an HTTP exchange at some point. -/
def hasHttp : List Event → Bool
  | [] => false
  | Event.httpExchange _ :: _ => true
  | _ :: rest => hasHttp rest

/-- Whether the first batch-limiter wait of an event trace happens before any
HTTP exchange (false when the trace never waits on the batch limiter). -/
def waitBeforeHttp : List Event → Bool
  | [] => false
  | Event.batchWait _ :: _ => true
  | Event.httpExchange _ :: _ => false
  | _ :: rest => waitBeforeHttp rest

theorem batchLoop_all_success :
    ∀ (n : Nat) (pending : List BatchItemRequest), pending.length ≤ n →
    ∀ (c : Client) (params : RequestParameters) (worlds : List World)
      (decoded : List (List BatchItemResponse)) (acc : List BatchItemResponse)
      (accCalls : List (List BatchItemRequest)) (accEvents : List (List Event)),
      CanServe c params.RealmId (chunks30 pending).length →
      (∀ w ∈ worlds.take (chunks30 pending).length, w.succeeds = true) →
      (chunks30 pending).length ≤ worlds.length →
      (batchLoop c false params pending worlds decoded acc accCalls accEvents).errored = none ∧
      (batchLoop c false params pending worlds decoded acc accCalls accEvents).calls =
        accCalls ++ chunks30 pending ∧
      (batchLoop c false params pending worlds decoded acc accCalls accEvents).responses =
        acc ++ (decoded.take (chunks30 pending).length).flatten ∧
      ∃ newEv, (batchLoop c false params pending worlds decoded acc accCalls accEvents).callEvents =
          accEvents ++ newEv ∧
        newEv.length = (chunks30 pending).length ∧
        ∀ evs ∈ newEv, (waitBeforeHttp evs && hasHttp evs) = true := by
  intro n
  induction n with
  | zero =>
    intro pending hn c params worlds decoded acc accCalls accEvents hcs hws hlen
    have hp : pending = [] := List.length_eq_zero.mp (Nat.le_zero.mp hn)
    subst hp
    rw [batchLoop]
    simp [chunks30_nil]
  | succ n ih =>
    intro pending hn c params worlds decoded acc accCalls accEvents hcs hws hlen
    by_cases hp : pending = []
    · subst hp
      rw [batchLoop]
      simp [chunks30_nil]
    · have hchunks := chunks30_cons pending hp
      have hpos : 0 < pending.length := List.length_pos.mpr hp
      cases worlds with
      | nil =>
        rw [hchunks] at hlen
        simp at hlen
      | cons w ws =>
        have hk : (chunks30 pending).length = (chunks30 (pending.drop 30)).length + 1 := by
          rw [hchunks]
          simp
        have hw0 : w.succeeds = true := by
          apply hws
          rw [hk]
          simp
        have hcs' : CanServe c params.RealmId ((chunks30 (pending.drop 30)).length + 1) := by
          rw [← hk]
          exact hcs
        have hstep := batch_success_step c params w (chunks30 (pending.drop 30)).length hcs' hw0
        rw [batchLoop]
        simp only [dif_neg hp]
        try simp only []
        rw [show ((w :: ws).headD
            { marshal := MarshalResult.ok "", buildOk := true,
              http := HttpResult.response 200 false "", gzipOk := true,
              decode := DecodeResult.ok, faultBody := ⟨0, "", "", ""⟩ }) = w from rfl]
        rw [show (w :: ws).tail = ws from rfl]
        have hrec := ih (pending.drop 30) (by simp only [List.length_drop]; omega)
          (Client.batch c false params true w).client params ws decoded.tail
          (acc ++ decoded.headD []) (accCalls ++ [pending.take 30])
          (accEvents ++ [(Client.batch c false params true w).events])
          hstep.2.1
          (by
            intro w' hw'
            apply hws
            rw [hk]
            simp only [List.take_succ_cons]
            exact List.mem_cons_of_mem w hw')
          (by
            rw [hk] at hlen
            simpa using Nat.le_of_succ_le_succ hlen)
        obtain ⟨he, hcalls, hresp, newEv, hce, hlen', hprop⟩ := hrec
        split
        · rename_i e heq
          rw [hstep.1] at heq
          simp at heq
        refine ⟨he, ?_, ?_, ?_⟩
        · rw [hcalls, hchunks]
          simp
        · rw [hresp, hk]
          cases decoded with
          | nil => simp
          | cons d ds => simp
        · refine ⟨(Client.batch c false params true w).events :: newEv, ?_, ?_, ?_⟩
          · rw [hce]
            simp
          · rw [hk]
            simp [hlen']
          · intro evs hevs
            rcases List.mem_cons.mp hevs with hevs | hevs
            · subst hevs
              obtain ⟨call, hev⟩ := hstep.2.2
              rw [hev]
              simp [waitBeforeHttp, hasHttp, gateEvents]
            · exact hprop evs hevs

/-- C6: BatchRequest partitions its input into consecutive chunks of at most
30 items, issues one batch dispatch per chunk sequentially, each dispatch
first waiting (always blocking, under the cancellation signal) on the realm
batch limiter before sending, and returns the per-item responses of all
chunks concatenated in input-chunk order; in particular a 65-item input
yields exactly three physical calls carrying 30, 30 and 5 items. -/
theorem BatchRequest_chunking (c : Client) (params : RequestParameters)
    (items : List BatchItemRequest) (worlds : List World)
    (decoded : List (List BatchItemResponse))
    (hcs : CanServe c params.RealmId (chunks30 items).length)
    (hws : ∀ w ∈ worlds.take (chunks30 items).length, w.succeeds = true)
    (hlen : (chunks30 items).length ≤ worlds.length) :
    (Client.BatchRequest c false params items worlds decoded).errored = none ∧
    (Client.BatchRequest c false params items worlds decoded).calls = chunks30 items ∧
    (∀ chunk ∈ (Client.BatchRequest c false params items worlds decoded).calls,
      chunk.length ≤ 30 ∧ chunk ≠ []) ∧
    (Client.BatchRequest c false params items worlds decoded).calls.flatten = items ∧
    (Client.BatchRequest c false params items worlds decoded).responses =
      (decoded.take (chunks30 items).length).flatten ∧
    (Client.BatchRequest c false params items worlds decoded).callEvents.length =
      (Client.BatchRequest c false params items worlds decoded).calls.length ∧
    (∀ evs ∈ (Client.BatchRequest c false params items worlds decoded).callEvents,
      (waitBeforeHttp evs && hasHttp evs) = true) ∧
    (items.length = 65 →
      (Client.BatchRequest c false params items worlds decoded).calls.map List.length =
        [30, 30, 5]) := by
  unfold Client.BatchRequest
  by_cases hi : items = []
  · subst hi
    simp [chunks30_nil]
  · simp only [if_neg hi]
    obtain ⟨he, hcalls, hresp, newEv, hce, hlen', hprop⟩ :=
      batchLoop_all_success items.length items (Nat.le_refl _) c params worlds decoded
        [] [] [] hcs hws hlen
    simp only [List.nil_append] at hcalls hresp hce
    refine ⟨he, hcalls, ?_, ?_, hresp, ?_, ?_, ?_⟩
    · intro chunk hchunk
      rw [hcalls] at hchunk
      exact chunks30_mem items chunk hchunk
    · rw [hcalls]
      exact chunks30_flatten items
    · rw [hce, hcalls, hlen']
    · intro evs hevs
      rw [hce] at hevs
      exact hprop evs hevs
    · intro h65
      rw [hcalls]
      exact chunks30_sizes_65 items h65

/-- A 65-item batch input. -/
def items65 : List BatchItemRequest := (List.range 65).map (fun i => { BID := toString i })

/-- Three successful oracles, one per physical call. -/
def worlds3 : List World := [sampleWorld, sampleWorld, sampleWorld]

/-- Decoded per-item responses of the three physical calls. -/
def decoded3 : List (List BatchItemResponse) := [[{ BID := "a" }], [{ BID := "b" }], [{ BID := "c" }]]

/-- Witness for C6: a concrete 65-item batch request is served in exactly
three physical calls of 30, 30 and 5 items, whose decoded responses are
concatenated in order. -/
theorem BatchRequest_chunking_witness :
    CanServe (NewClient { Endpoint := "e", MinorVersion := "" }) sampleParams.RealmId
      (chunks30 items65).length ∧
    (Client.BatchRequest (NewClient { Endpoint := "e", MinorVersion := "" }) false sampleParams
      items65 worlds3 decoded3).errored = none ∧
    (Client.BatchRequest (NewClient { Endpoint := "e", MinorVersion := "" }) false sampleParams
      items65 worlds3 decoded3).calls.map List.length = [30, 30, 5] ∧
    (Client.BatchRequest (NewClient { Endpoint := "e", MinorVersion := "" }) false sampleParams
      items65 worlds3 decoded3).responses = (decoded3.take (chunks30 items65).length).flatten := by
  have h65 : items65.length = 65 := by decide
  have hlen3 : (chunks30 items65).length = 3 := by
    have := congrArg List.length (chunks30_sizes_65 items65 h65)
    simpa using this
  have h := BatchRequest_chunking (NewClient { Endpoint := "e", MinorVersion := "" }) sampleParams
    items65 worlds3 decoded3 (by rw [hlen3]; decide) (by rw [hlen3]; decide) (by rw [hlen3]; decide)
  exact ⟨by rw [hlen3]; decide, h.1, h.2.2.2.2.2.2.2 h65, h.2.2.2.2.1⟩

/-- Any dispatch whose oracle fails at some external step returns a non-nil
error (the local gates may even reject it earlier). Stated for the
payload-carrying, response-decoding shape that batch dispatches use. -/
theorem req_fails_of_world_fails (c : Client) (params : RequestParameters)
    (method endpoint : String) (queryParameters : List (String × String)) (w : World)
    (hw : w.succeeds = false) :
    (Client.req c params method endpoint true true queryParameters w).result.isSome = true := by
  unfold Client.req
  repeat' (first | split | (simp only []; split))
  all_goals simp_all [World.succeeds]

theorem batch_fails_of_world_fails (c : Client) (params : RequestParameters) (w : World)
    (hw : w.succeeds = false) :
    (Client.batch c false params true w).result.isSome = true := by
  unfold Client.batch
  simp only [Bool.false_eq_true, if_false]
  try simp only []
  exact req_fails_of_world_fails _ params "POST" "batch" [] w hw

theorem batchLoop_error_responses :
    ∀ (n : Nat) (pending : List BatchItemRequest), pending.length ≤ n →
    ∀ (c : Client) (ctx : Bool) (params : RequestParameters) (worlds : List World)
      (decoded : List (List BatchItemResponse)) (acc : List BatchItemResponse)
      (accCalls : List (List BatchItemRequest)) (accEvents : List (List Event)),
      (batchLoop c ctx params pending worlds decoded acc accCalls accEvents).errored.isSome = true →
      (batchLoop c ctx params pending worlds decoded acc accCalls accEvents).responses = [] := by
  intro n
  induction n with
  | zero =>
    intro pending hn c ctx params worlds decoded acc accCalls accEvents herr
    have hp : pending = [] := List.length_eq_zero.mp (Nat.le_zero.mp hn)
    subst hp
    rw [batchLoop] at herr
    simp at herr
  | succ n ih =>
    intro pending hn c ctx params worlds decoded acc accCalls accEvents herr
    by_cases hp : pending = []
    · subst hp
      rw [batchLoop] at herr
      simp at herr
    · rw [batchLoop] at herr ⊢
      simp only [dif_neg hp] at herr ⊢
      revert herr
      split
      · intro _
        rfl
      · intro herr
        have hpos : 0 < pending.length := List.length_pos.mpr hp
        exact ih (pending.drop 30) (by simp only [List.length_drop]; omega) _ ctx params _ _ _ _ _
          herr

theorem batchLoop_fails_at :
    ∀ (j : Nat) (pending : List BatchItemRequest) (c : Client) (params : RequestParameters)
      (worlds : List World) (decoded : List (List BatchItemResponse))
      (acc : List BatchItemResponse) (accCalls : List (List BatchItemRequest))
      (accEvents : List (List Event)) (wj : World),
      CanServe c params.RealmId j →
      (∀ w ∈ worlds.take j, w.succeeds = true) →
      worlds[j]? = some wj → wj.succeeds = false →
      j < (chunks30 pending).length →
      (batchLoop c false params pending worlds decoded acc accCalls accEvents).errored.isSome =
        true ∧
      (batchLoop c false params pending worlds decoded acc accCalls accEvents).responses = [] ∧
      (batchLoop c false params pending worlds decoded acc accCalls accEvents).calls =
        accCalls ++ (chunks30 pending).take (j + 1) ∧
      (batchLoop c false params pending worlds decoded acc accCalls accEvents).callEvents.length =
        accEvents.length + (j + 1) := by
  intro j
  induction j with
  | zero =>
    intro pending c params worlds decoded acc accCalls accEvents wj hcs hws hget hfail hj
    have hp : pending ≠ [] := by
      intro hp
      rw [hp, chunks30_nil] at hj
      simp at hj
    cases worlds with
    | nil => simp at hget
    | cons w ws =>
      have hw : w = wj := by simpa using hget
      subst hw
      have hbf := batch_fails_of_world_fails c params w hfail
      rw [batchLoop]
      simp only [dif_neg hp]
      try simp only []
      rw [show ((w :: ws).headD
          { marshal := MarshalResult.ok "", buildOk := true,
            http := HttpResult.response 200 false "", gzipOk := true,
            decode := DecodeResult.ok, faultBody := ⟨0, "", "", ""⟩ }) = w from rfl]
      split
      · rename_i e heq
        refine ⟨rfl, rfl, ?_, ?_⟩
        · rw [chunks30_cons pending hp]
          simp
        · simp
      · rename_i heq
        rw [heq] at hbf
        simp at hbf
  | succ j ih =>
    intro pending c params worlds decoded acc accCalls accEvents wj hcs hws hget hfail hj
    have hp : pending ≠ [] := by
      intro hp
      rw [hp, chunks30_nil] at hj
      simp at hj
    cases worlds with
    | nil => simp at hget
    | cons w ws =>
      have hw0 : w.succeeds = true := by
        apply hws
        simp [List.take_succ_cons]
      have hstep := batch_success_step c params w j hcs hw0
      rw [batchLoop]
      simp only [dif_neg hp]
      try simp only []
      rw [show ((w :: ws).headD
          { marshal := MarshalResult.ok "", buildOk := true,
            http := HttpResult.response 200 false "", gzipOk := true,
            decode := DecodeResult.ok, faultBody := ⟨0, "", "", ""⟩ }) = w from rfl]
      rw [show (w :: ws).tail = ws from rfl]
      split
      · rename_i e heq
        rw [hstep.1] at heq
        simp at heq
      · have hj' : j < (chunks30 (pending.drop 30)).length := by
          rw [chunks30_cons pending hp] at hj
          simpa using Nat.lt_of_succ_lt_succ hj
        have hrec := ih (pending.drop 30) (Client.batch c false params true w).client params
          ws decoded.tail (acc ++ decoded.headD []) (accCalls ++ [pending.take 30])
          (accEvents ++ [(Client.batch c false params true w).events]) wj
          hstep.2.1
          (by
            intro w' hw'
            apply hws
            simp only [List.take_succ_cons]
            exact List.mem_cons_of_mem w hw')
          (by simpa using hget) hfail hj'
        obtain ⟨he, hresp, hcalls, hce⟩ := hrec
        refine ⟨he, hresp, ?_, ?_⟩
        · rw [hcalls, chunks30_cons pending hp]
          simp [List.take_succ_cons]
        · rw [hce]
          simp
          omega

/-- C10: a failed chunk dispatch makes BatchRequest return a nil response
slice and the wrapped error, discarding responses of earlier successful
chunks and issuing no further calls; and an empty input returns nil responses
and a nil error with no dispatch and no limiter acquisition performed. -/
theorem BatchRequest_error_policy :
    (∀ (c : Client) (ctx : Bool) (params : RequestParameters)
      (items : List BatchItemRequest) (worlds : List World)
      (decoded : List (List BatchItemResponse)),
      (Client.BatchRequest c ctx params items worlds decoded).errored.isSome = true →
      (Client.BatchRequest c ctx params items worlds decoded).responses = []) ∧
    (∀ (c : Client) (ctx : Bool) (params : RequestParameters) (worlds : List World)
      (decoded : List (List BatchItemResponse)),
      Client.BatchRequest c ctx params [] worlds decoded =
        { responses := [], errored := none, calls := [], callEvents := [], client := c }) ∧
    (∀ (c : Client) (params : RequestParameters) (items : List BatchItemRequest)
      (worlds : List World) (decoded : List (List BatchItemResponse)) (j : Nat) (wj : World),
      CanServe c params.RealmId j →
      (∀ w ∈ worlds.take j, w.succeeds = true) →
      worlds[j]? = some wj → wj.succeeds = false → j < (chunks30 items).length →
      (Client.BatchRequest c false params items worlds decoded).errored.isSome = true ∧
      (Client.BatchRequest c false params items worlds decoded).responses = [] ∧
      (Client.BatchRequest c false params items worlds decoded).calls =
        (chunks30 items).take (j + 1) ∧
      (Client.BatchRequest c false params items worlds decoded).callEvents.length = j + 1) := by
  refine ⟨?_, ?_, ?_⟩
  · intro c ctx params items worlds decoded herr
    unfold Client.BatchRequest at herr ⊢
    by_cases hi : items = []
    · simp [hi] at herr
    · simp only [if_neg hi] at herr ⊢
      exact batchLoop_error_responses items.length items (Nat.le_refl _) c ctx params worlds
        decoded [] [] [] herr
  · intro c ctx params worlds decoded
    unfold Client.BatchRequest
    simp
  · intro c params items worlds decoded j wj hcs hws hget hfail hj
    have hi : items ≠ [] := by
      intro hi
      rw [hi, chunks30_nil] at hj
      simp at hj
    unfold Client.BatchRequest
    simp only [if_neg hi]
    have := batchLoop_fails_at j items c params worlds decoded [] [] [] wj hcs hws hget hfail hj
    simpa using this

/-- An oracle whose HTTP exchange yields a 500 with a fault body. -/
def badWorld : World :=
  { marshal := MarshalResult.ok "", buildOk := true,
    http := HttpResult.response 500 false "", gzipOk := true,
    decode := DecodeResult.ok, faultBody := ⟨500, "6000", "", "server error"⟩ }

/-- Witness for C10: a concrete 65-item batch whose second physical call
fails stops after two calls with a nil response slice and an error, and an
empty input performs nothing. -/
theorem BatchRequest_error_policy_witness :
    badWorld.succeeds = false ∧
    (Client.BatchRequest (NewClient { Endpoint := "e", MinorVersion := "" }) false sampleParams
      items65 [sampleWorld, badWorld, sampleWorld] decoded3).errored.isSome = true ∧
    (Client.BatchRequest (NewClient { Endpoint := "e", MinorVersion := "" }) false sampleParams
      items65 [sampleWorld, badWorld, sampleWorld] decoded3).responses = [] ∧
    (Client.BatchRequest (NewClient { Endpoint := "e", MinorVersion := "" }) false sampleParams
      items65 [sampleWorld, badWorld, sampleWorld] decoded3).calls =
      (chunks30 items65).take 2 ∧
    Client.BatchRequest (NewClient { Endpoint := "e", MinorVersion := "" }) false sampleParams
      [] [sampleWorld] decoded3 =
      { responses := [], errored := none, calls := [], callEvents := [],
        client := NewClient { Endpoint := "e", MinorVersion := "" } } := by
  have h65 : items65.length = 65 := by decide
  have hlen3 : (chunks30 items65).length = 3 := by
    have := congrArg List.length (chunks30_sizes_65 items65 h65)
    simpa using this
  have h := BatchRequest_error_policy.2.2 (NewClient { Endpoint := "e", MinorVersion := "" })
    sampleParams items65 [sampleWorld, badWorld, sampleWorld] decoded3 1 badWorld
    (by decide) (by decide) (by decide) (by decide) (by rw [hlen3]; decide)
  exact ⟨by decide, h.1, h.2.1, h.2.2.1,
    BatchRequest_error_policy.2.1 (NewClient { Endpoint := "e", MinorVersion := "" }) false
      sampleParams [sampleWorld] decoded3⟩

namespace V15

/-!
Embedding of the older, blocking revision of the client file: the revision
whose Client carries the throttled flag and whose req acquires the global
concurrency channel with a plain blocking send. Its RealmRateLimiters and
RateLimiterManager are identical to the current revision and are reused.
-/

/-- A Go channel used as a semaphore: capacity and occupied slots. A missing
value models a nil channel (the zero value of an uninitialized chan field);
both a send on a nil channel and a send on a full channel block. -/
structure ChanState where
  cap : Nat
  used : Nat
deriving DecidableEq, Repr

/-- Mirrors the Go struct Client of the older revision. -/
structure Client where
  baseEndpoint : String
  minorVersion : String
  throttled : Bool
  rateLimiter : RateLimiterManager
  globalConcurrent : Option ChanState
deriving DecidableEq, Repr

/-- Mirrors NewClient of the older revision: the composite literal sets
Client, discoveryAPI, clientId, clientSecret, minorVersion, throttled and
rateLimiter, but never globalConcurrent, which therefore stays the zero
value: a nil channel. -/
def NewClient (req : ClientRequest) : Client :=
  { baseEndpoint := req.Endpoint ++ "/v3/company/",
    minorVersion := if req.MinorVersion = "" then "75" else req.MinorVersion,
    throttled := false,
    rateLimiter := NewRateLimiterManager,
    globalConcurrent := none }

/-- Outcome of the gate phase of the blocking req: either the global channel
send blocks (nil or full channel — the send is a plain send, not a select on
ctx.Done(), so the context is never consulted while blocked), or the realm
general limiter Wait returns the context error (the one cancellation point of
the gate phase), or all of the gate phase up to the realm send is passed. -/
inductive GateOutcome where
  | stuckOnGlobalGate
  | cancelledAtRealmGeneral (c : Client)
  | proceeded (c : Client)
deriving DecidableEq, Repr

/-- Whether the gate phase returned with the context's cancellation error. -/
def GateOutcome.isCancelled : GateOutcome → Bool
  | GateOutcome.cancelledAtRealmGeneral _ => true
  | _ => false

/-- Mirrors the gate phase of the blocking Client.req: the plain send on
c.globalConcurrent, getRealmLimiter, limiter.general.Wait(ctx). A send on a
nil channel blocks forever; a send on a full channel blocks until a slot
frees; neither consults ctxCancelled. Wait consumes a general token, or
returns the context error when the context is cancelled — in which case the
deferred receive has already restored the global count. -/
def Client.reqGate (c : Client) (ctxCancelled : Bool) (realmId : String) : GateOutcome :=
  match c.globalConcurrent with
  | none => GateOutcome.stuckOnGlobalGate
  | some ch =>
    if ch.used < ch.cap then
      let c₁ := { c with globalConcurrent := some { ch with used := ch.used + 1 } }
      let gl := c₁.rateLimiter.getRealmLimiter realmId
      let c₂ := { c₁ with rateLimiter := gl.2 }
      if ctxCancelled then
        GateOutcome.cancelledAtRealmGeneral
          { c₂ with globalConcurrent := some { ch with used := ch.used + 1 - 1 } }
      else
        GateOutcome.proceeded
          { c₂ with rateLimiter := c₂.rateLimiter.updateRealm realmId consumeGeneralToken }
    else GateOutcome.stuckOnGlobalGate

end V15

/-- C7 (code evaluated at the failing input): in the blocking revision, a
dispatch whose cancellation signal fires while waiting on the global gate
does not return a cancellation error — the plain channel send ignores the
context, so the call stays blocked, with a full gate and, a fortiori, with
the nil gate that this revision's NewClient actually produces (its composite
literal never initializes globalConcurrent); the outcome while blocked is
identical whether or not the context is cancelled. Cancellation is honored
only at the realm general limiter, after the global gate has been passed. -/
theorem blocking_global_gate_ignores_cancellation :
    (V15.NewClient { Endpoint := "e", MinorVersion := "" }).globalConcurrent = none ∧
    V15.Client.reqGate (V15.NewClient { Endpoint := "e", MinorVersion := "" }) true "r" =
      V15.GateOutcome.stuckOnGlobalGate ∧
    V15.Client.reqGate (V15.NewClient { Endpoint := "e", MinorVersion := "" }) true "r" =
      V15.Client.reqGate (V15.NewClient { Endpoint := "e", MinorVersion := "" }) false "r" ∧
    (V15.Client.reqGate (V15.NewClient { Endpoint := "e", MinorVersion := "" }) true "r").isCancelled
      = false ∧
    V15.Client.reqGate
      { V15.NewClient { Endpoint := "e", MinorVersion := "" } with
        globalConcurrent := some { cap := 10, used := 10 } } true "r" =
      V15.GateOutcome.stuckOnGlobalGate ∧
    V15.Client.reqGate
      { V15.NewClient { Endpoint := "e", MinorVersion := "" } with
        globalConcurrent := some { cap := 10, used := 10 } } true "r" =
      V15.Client.reqGate
        { V15.NewClient { Endpoint := "e", MinorVersion := "" } with
          globalConcurrent := some { cap := 10, used := 10 } } false "r" ∧
    (V15.Client.reqGate
      { V15.NewClient { Endpoint := "e", MinorVersion := "" } with
        globalConcurrent := some { cap := 10, used := 0 } } true "r").isCancelled = true := by
  decide

namespace Sched

/-!
Interleaving model of N concurrent non-blocking dispatches against one realm,
derived from the gate sequence of Client.req: each call walks the same gate
order with each gate action atomic, against a fresh client and a fresh realm
(all buckets at full burst, both semaphores empty). A schedule is the list
of call indices in the order their next atomic action runs; it represents
one possible interleaving of the concurrent calls, all of which exist from
the start.
-/

/-- Final disposition of one call: which gate rejected it, or completion of
its HTTP exchange. -/
inductive CallOutcome where
  | globalConcErr
  | globalGenErr
  | realmGenErr
  | realmConcErr
  | httpDone
deriving DecidableEq, Repr

/-- Progress of one call through the gate sequence of Client.req. -/
inductive Phase where
  | ready
  | holdsGlobal
  | passedGlobalGen
  | passedRealmGen
  | exchanging
  | done (r : CallOutcome)
deriving DecidableEq, Repr

/-- Shared quota state plus the phase of every call. httpStarted counts the
HTTP exchanges that have begun. -/
structure SState where
  tasks : Nat → Phase
  globalConc : Nat
  globalTokens : Nat
  realmTokens : Nat
  realmConc : Nat
  httpStarted : Nat

/-- Replace the phase of one call. -/
def SState.setTask (st : SState) (i : Nat) (ph : Phase) : SState :=
  { st with tasks := fun j => if j = i then ph else st.tasks j }

/-- One atomic action of call i, following the order of Client.req: the
global concurrency select, the global limiter Allow, the realm limiter
Allow, the realm concurrency select, then the HTTP exchange. A failed gate
returns immediately with its typed outcome, the deferred releases of any
held slots running at the return (modelled atomically with the failing
check). done is absorbing. -/
def step (st : SState) (i : Nat) : SState :=
  match st.tasks i with
  | Phase.ready =>
    if st.globalConc < globalConcurrentCap then
      { st.setTask i Phase.holdsGlobal with globalConc := st.globalConc + 1 }
    else
      st.setTask i (Phase.done CallOutcome.globalConcErr)
  | Phase.holdsGlobal =>
    if 0 < st.globalTokens then
      { st.setTask i Phase.passedGlobalGen with globalTokens := st.globalTokens - 1 }
    else
      { st.setTask i (Phase.done CallOutcome.globalGenErr) with globalConc := st.globalConc - 1 }
  | Phase.passedGlobalGen =>
    if 0 < st.realmTokens then
      { st.setTask i Phase.passedRealmGen with realmTokens := st.realmTokens - 1 }
    else
      { st.setTask i (Phase.done CallOutcome.realmGenErr) with globalConc := st.globalConc - 1 }
  | Phase.passedRealmGen =>
    if st.realmConc < realmConcurrentCap then
      { { st.setTask i Phase.exchanging with realmConc := st.realmConc + 1 } with
          httpStarted := st.httpStarted + 1 }
    else
      { st.setTask i (Phase.done CallOutcome.realmConcErr) with globalConc := st.globalConc - 1 }
  | Phase.exchanging =>
    { { st.setTask i (Phase.done CallOutcome.httpDone) with globalConc := st.globalConc - 1 } with
        realmConc := st.realmConc - 1 }
  | Phase.done _ => st

/-- Run a schedule from a state. -/
def run (st : SState) (sched : List Nat) : SState :=
  sched.foldl step st

/-- N calls about to dispatch against a fresh client and a fresh realm. -/
def init (N : Nat) : SState :=
  { tasks := fun _ => Phase.ready, globalConc := 0, globalTokens := 10,
    realmTokens := 10, realmConc := 0, httpStarted := 0 }

/-- How many of the N calls have returned with the given outcome. -/
def doneCount (st : SState) (N : Nat) (r : CallOutcome) : Nat :=
  (List.range N).countP (fun i => decide (st.tasks i = Phase.done r))

/-- Whether every one of the N calls has returned. -/
def allDone (st : SState) (N : Nat) : Bool :=
  (List.range N).all fun i =>
    match st.tasks i with
    | Phase.done _ => true
    | _ => false

theorem step_preserves_done (st : SState) (j i : Nat) (r : CallOutcome)
    (h : st.tasks i = Phase.done r) : (step st j).tasks i = Phase.done r := by
  by_cases hij : i = j
  · subst hij
    unfold step
    rw [h]
    exact h
  · unfold step
    repeat' (first | split | (simp only []; split))
    all_goals simp [SState.setTask, hij, h]

theorem done_absorbing (rest : List Nat) : ∀ (st : SState) (i : Nat) (r : CallOutcome),
    st.tasks i = Phase.done r → (run st rest).tasks i = Phase.done r := by
  induction rest with
  | nil => intro st i r h; exact h
  | cons j tl ih =>
    intro st i r h
    exact ih (step st j) i r (step_preserves_done st j i r h)

theorem doneCount_mono (st : SState) (rest : List Nat) (N : Nat) (r : CallOutcome) :
    doneCount st N r ≤ doneCount (run st rest) N r := by
  unfold doneCount
  apply List.countP_mono_left
  intro i _ hi
  have := done_absorbing rest st i r (by simpa using hi)
  simpa using this

theorem run_first_attempts : ∀ (l : List Nat) (st : SState),
    l.Nodup → (∀ i ∈ l, st.tasks i = Phase.ready) → st.globalConc ≤ 10 →
    (run st l).globalConc ≤ 10 ∧
    (run st l).globalConc +
        l.countP (fun i => decide ((run st l).tasks i = Phase.done CallOutcome.globalConcErr)) =
      st.globalConc + l.length ∧
    (run st l).httpStarted = st.httpStarted ∧
    (∀ i, i ∉ l → (run st l).tasks i = st.tasks i) := by
  intro l
  induction l with
  | nil =>
    intro st _ _ hc
    exact ⟨hc, by simp [run], rfl, fun i _ => rfl⟩
  | cons a as ih =>
    intro st hnd hready hc
    have hna : a ∉ as := (List.nodup_cons.mp hnd).1
    have hnd' : as.Nodup := (List.nodup_cons.mp hnd).2
    have hra : st.tasks a = Phase.ready := hready a (List.mem_cons_self a as)
    have hrun : run st (a :: as) = run (step st a) as := rfl
    by_cases hlt : st.globalConc < globalConcurrentCap
    · have hstep : step st a =
          { st.setTask a Phase.holdsGlobal with globalConc := st.globalConc + 1 } := by
        unfold step
        rw [hra]
        simp [hlt]
      have hready' : ∀ i ∈ as, (step st a).tasks i = Phase.ready := by
        intro i hi
        rw [hstep]
        have hia : i ≠ a := fun h => hna (h ▸ hi)
        simp only [SState.setTask, if_neg hia]
        exact hready i (List.mem_cons_of_mem a hi)
      have hc' : (step st a).globalConc ≤ 10 := by
        rw [hstep]
        have hlt10 : st.globalConc < 10 := by simpa [globalConcurrentCap] using hlt
        simp only [SState.setTask]
        omega
      obtain ⟨ih1, ih2, ih3, ih4⟩ := ih (step st a) hnd' hready' hc'
      have htaska : (run (step st a) as).tasks a = Phase.holdsGlobal := by
        rw [ih4 a hna, hstep]
        simp [SState.setTask]
      refine ⟨by simpa [hrun] using ih1, ?_, ?_, ?_⟩
      · rw [hrun, List.countP_cons_of_neg _ _ (by simp [htaska])]
        have hconc : (step st a).globalConc = st.globalConc + 1 := by
          rw [hstep]
        rw [hconc] at ih2
        simp only [List.length_cons]
        omega
      · rw [hrun, ih3, hstep]
        rfl
      · intro i hi
        have hias : i ∉ as := fun h => hi (List.mem_cons_of_mem a h)
        have hia : i ≠ a := fun h => hi (h ▸ List.mem_cons_self a as)
        rw [hrun, ih4 i hias, hstep]
        simp [SState.setTask, hia]
    · have hstep : step st a =
          st.setTask a (Phase.done CallOutcome.globalConcErr) := by
        unfold step
        rw [hra]
        simp [hlt]
      have hready' : ∀ i ∈ as, (step st a).tasks i = Phase.ready := by
        intro i hi
        rw [hstep]
        have hia : i ≠ a := fun h => hna (h ▸ hi)
        simp only [SState.setTask, if_neg hia]
        exact hready i (List.mem_cons_of_mem a hi)
      have hc' : (step st a).globalConc ≤ 10 := by
        rw [hstep]
        simpa [SState.setTask] using hc
      obtain ⟨ih1, ih2, ih3, ih4⟩ := ih (step st a) hnd' hready' hc'
      have htaska : (run (step st a) as).tasks a = Phase.done CallOutcome.globalConcErr := by
        rw [ih4 a hna, hstep]
        simp [SState.setTask]
      refine ⟨by simpa [hrun] using ih1, ?_, ?_, ?_⟩
      · rw [hrun, List.countP_cons_of_pos _ _ (by simp [htaska])]
        have hconc : (step st a).globalConc = st.globalConc := by
          rw [hstep]
          rfl
        rw [hconc] at ih2
        simp only [List.length_cons]
        omega
      · rw [hrun, ih3, hstep]
        rfl
      · intro i hi
        have hias : i ∉ as := fun h => hi (List.mem_cons_of_mem a h)
        have hia : i ≠ a := fun h => hi (h ▸ List.mem_cons_self a as)
        rw [hrun, ih4 i hias, hstep]
        simp [SState.setTask, hia]

end Sched

/-- A schedule of 11 concurrent calls in which calls 0 to 9 pass every gate
and hold their permits, call 10 then attempts admission while all eleven
calls are in flight, and calls 0 to 9 finish afterwards. -/
def cexSchedule : List Nat :=
  List.range 10 ++ List.range 10 ++ List.range 10 ++ List.range 10 ++ [10] ++ List.range 10

/-- Counterexample for C4 as stated: with N = 11 > 10 concurrent non-blocking
dispatches against one account, there is an interleaving in which every call
returns yet no call at all returns the RealmConcurrencyExceeded kind — the
excess call is rejected by the global concurrency gate, which Client.req
checks first and which shares the same ceiling of 10 — so fewer than
N − C_g = 1 calls observe RealmConcurrencyExceeded. -/
theorem concurrent_excess_cex :
    10 < 11 ∧
    Sched.allDone (Sched.run (Sched.init 11) cexSchedule) 11 = true ∧
    Sched.doneCount (Sched.run (Sched.init 11) cexSchedule) 11 Sched.CallOutcome.realmConcErr = 0 ∧
    Sched.doneCount (Sched.run (Sched.init 11) cexSchedule) 11 Sched.CallOutcome.globalConcErr = 1 ∧
    ¬ 11 - 10 ≤
      Sched.doneCount (Sched.run (Sched.init 11) cexSchedule) 11 Sched.CallOutcome.realmConcErr := by
  decide

/-- C4 (amended): for all N > 10 concurrent non-blocking dispatch calls
against one account, under any interleaving in which every call makes its
first gate attempt before any call releases a slot (the prefix l lists each
call's first action), at least N − 10 of the calls return a typed local
rate-limit error — the GlobalConcurrencyExceeded kind, since the global
gate is checked first and shares the realm's ceiling of 10 — before any
HTTP exchange has begun, and these rejections persist to the end of the
schedule. -/
theorem concurrent_excess_rejected (N : Nat) (l rest : List Nat)
    (hN : 10 < N) (hmem : ∀ x ∈ l, x < N) (hnd : l.Nodup) (hcov : ∀ i < N, i ∈ l) :
    N - 10 ≤ Sched.doneCount (Sched.run (Sched.init N) l) N Sched.CallOutcome.globalConcErr ∧
    (Sched.run (Sched.init N) l).httpStarted = 0 ∧
    N - 10 ≤
      Sched.doneCount (Sched.run (Sched.init N) (l ++ rest)) N Sched.CallOutcome.globalConcErr := by
  have hperm : List.Perm l (List.range N) :=
    (List.perm_ext_iff_of_nodup hnd (List.nodup_range N)).mpr (by
      intro a
      constructor
      · intro ha
        exact List.mem_range.mpr (hmem a ha)
      · intro ha
        exact hcov a (List.mem_range.mp ha))
  have hlenl : l.length = N := by
    have := hperm.length_eq
    simpa using this
  obtain ⟨h1, h2, h3, _⟩ := Sched.run_first_attempts l (Sched.init N) hnd
    (fun i _ => rfl) (by simp [Sched.init])
  have hcnt : Sched.doneCount (Sched.run (Sched.init N) l) N Sched.CallOutcome.globalConcErr =
      l.countP (fun i =>
        decide ((Sched.run (Sched.init N) l).tasks i = Sched.Phase.done Sched.CallOutcome.globalConcErr)) := by
    unfold Sched.doneCount
    exact (hperm.countP_eq _).symm
  have hfirst : N - 10 ≤
      Sched.doneCount (Sched.run (Sched.init N) l) N Sched.CallOutcome.globalConcErr := by
    rw [hcnt]
    have hg : (Sched.init N).globalConc = 0 := rfl
    rw [hg, hlenl] at h2
    omega
  have hhttp : (Sched.run (Sched.init N) l).httpStarted = 0 := by
    have hh : (Sched.init N).httpStarted = 0 := rfl
    rw [hh] at h3
    exact h3
  refine ⟨hfirst, hhttp, ?_⟩
  have : Sched.run (Sched.init N) (l ++ rest) = Sched.run (Sched.run (Sched.init N) l) rest := by
    unfold Sched.run
    exact List.foldl_append _ _ l rest
  rw [this]
  exact le_trans hfirst (Sched.doneCount_mono _ rest N _)

/-- Witness for C4 (amended) at N = 11 with every first attempt scheduled
up front. -/
theorem concurrent_excess_rejected_witness :
    10 < 11 ∧ (List.range 11).Nodup ∧
    11 - 10 ≤
      Sched.doneCount (Sched.run (Sched.init 11) (List.range 11)) 11
        Sched.CallOutcome.globalConcErr ∧
    (Sched.run (Sched.init 11) (List.range 11)).httpStarted = 0 := by
  have h := concurrent_excess_rejected 11 (List.range 11) [] (by decide)
    (by decide) (by decide) (by decide)
  exact ⟨by decide, by decide, h.1, h.2.1⟩

end QBClient
